import Mathlib

/-!
# PokeChess game-logic kernel: shallow embedding and verification

This file embeds the game-logic kernel of the PokeChess repository in Lean 4
and proves properties of it.  The embedding follows the TypeScript sources:

* `packages/engine/src/combat.ts`  — base stats, evolution, damage formula,
  stochastic combat resolver;
* `packages/engine/src/balance.ts` — exact win-probability calculator (DP);
* `packages/engine/src/typeChart.ts` — Gen-1 type-effectiveness chart;
* `packages/engine/src/chess.ts`   — board, move generation, check detection;
* `packages/engine/src/game.ts`    — game state machine.

Embedding conventions:

* JavaScript numbers that hold integers (HP, attack, defense, rolls,
  coordinates) become `ℤ` or `ℕ`; probabilities and type multipliers become
  `ℚ` (the source's floating-point arithmetic is read at exact-rational
  semantics, which is the spec's own reading of the DP algebra).
* `Math.random()`-driven die rolls are modelled by an explicit stream
  `rolls : ℕ → ℕ` consumed in call order; the combat `while` loop (which the
  source does not bound) gets an explicit fuel parameter, `none` meaning the
  source loop would still be running.
* The 8×8 board (`(GamePiece | null)[][]`) becomes a total function
  `ℤ → ℤ → Option GamePiece`; squares outside `[0,8)×[0,8)` carry `none`
  (the source only ever reads in-bounds squares on the states considered).
* The Pokémon catalogue (`@pokechess/data`) and the percentile classifier are
  static data lookups; they are abstracted as an `Env` of lookup functions and
  every theorem is proved for every environment.
* Thrown `Error`s become `Except String`; the source allocates fresh objects
  and never writes a field of its input state before throwing, so the pure
  embedding is faithful to the "no mutation on rejection" behaviour.
* The global `pieceIdCounter` (string ids `piece_${n}`) is threaded explicitly
  and the id is modelled by the counter value `n : ℕ` itself.
-/

namespace PokeChess

/-! ## Data model (`packages/data/src/types.ts`) -/

/-- The fifteen Gen-1 Pokémon types. -/
inductive PokemonType
  | Normal | Fire | Water | Electric | Grass | Ice
  | Fighting | Poison | Ground | Flying | Psychic
  | Bug | Rock | Ghost | Dragon
  deriving DecidableEq

/-- The six chess classes. -/
inductive PieceClass
  | Pawn | Knight | Bishop | Rook | Queen | King
  deriving DecidableEq

/-- The two sides. -/
inductive Owner
  | white | black
  deriving DecidableEq

/-- Source `'white' ? 'black' : 'white'`. -/
def Owner.opponent : Owner → Owner
  | .white => .black
  | .black => .white

/-- Board coordinates (source: `{ row, col }`). -/
structure Pos where
  row : ℤ
  col : ℤ
  deriving DecidableEq

/-! ## Damage formula (`combat.ts`, `calculateDamage`) -/

/-- Source `calculateDamage(roll, attackerAttack, defenderDefense, typeMultiplier,
isFirstHitOnDefender)`: the defender guard adds +1 defense on the first hit
received; damage is `Math.floor(Math.max(0, raw) * typeMultiplier)`. -/
def calculateDamage (roll attackerAttack defenderDefense : ℤ)
    (typeMultiplier : ℚ) (isFirstHitOnDefender : Bool) : ℤ :=
  let effectiveDefense :=
    if isFirstHitOnDefender then defenderDefense + 1 else defenderDefense
  let raw := roll + attackerAttack - effectiveDefense
  ⌊(((max 0 raw : ℤ) : ℚ) * typeMultiplier)⌋

/-! ## Type chart (`typeChart.ts`) -/

/-- Source `SE = 1.5`. -/
def SE : ℚ := 3 / 2

/-- Source `N = 1.0`. -/
def N : ℚ := 1

/-- Source `RES = 0.75`. -/
def RES : ℚ := 3 / 4

/-- Source `IMM = 0`. -/
def IMM : ℚ := 0

/-- Source `TYPE_ORDER`: indexing order of the chart matrix. -/
def TYPE_ORDER : List PokemonType :=
  [.Normal, .Fire, .Water, .Electric, .Grass, .Ice,
   .Fighting, .Poison, .Ground, .Flying, .Psychic,
   .Bug, .Rock, .Ghost, .Dragon]

/-- The Gen-1 chart: `CHART[atk][def]`, rows = attacking type. -/
def CHART : List (List ℚ) :=
  [ /- Normal  -/ [N,   N,   N,   N,   N,   N,   N,   N,   N,   N,   N,   N,  RES, IMM,  N],
   /- Fire    -/ [N,  RES, RES,  N,   SE,  SE,  N,   N,   N,   N,   N,   SE, RES,  N,  RES],
   /- Water   -/ [N,   SE, RES,  N,  RES,  N,   N,   N,   SE,  N,   N,   N,   SE,  N,  RES],
   /- Electric-/ [N,   N,   SE, RES, RES,  N,   N,   N,  IMM,  SE,  N,   N,   N,   N,  RES],
   /- Grass   -/ [N,  RES,  SE,  N,  RES,  N,   N,  RES,  SE, RES,  N,  RES,  SE,  N,  RES],
   /- Ice     -/ [N,   N,  RES,  N,   SE, RES,  N,   N,   SE,  SE,  N,   N,   N,   N,   SE],
   /- Fighting-/ [SE,  N,   N,   N,   N,   SE,  N,  RES,  N,  RES, RES, RES,  SE, IMM,  N],
   /- Poison  -/ [N,   N,   N,   N,   SE,  N,   N,  RES, RES,  N,   N,   SE, RES, RES,  N],
   /- Ground  -/ [N,   SE,  N,   SE, RES,  N,   N,   SE,  N,  IMM,  N,  RES,  SE,  N,   N],
   /- Flying  -/ [N,   N,   N,  RES,  SE,  N,   SE,  N,   N,   N,   N,   SE, RES,  N,   N],
   /- Psychic -/ [N,   N,   N,   N,   N,   N,   SE,  SE,  N,   N,  RES,  N,   N,   N,   N],
   /- Bug     -/ [N,  RES,  N,   N,   SE,  N,  RES, RES,  N,  RES,  SE,  N,   N,  RES,  N],
   /- Rock    -/ [N,   SE,  N,   N,   N,   SE, RES,  N,  RES,  SE,  N,   SE,  N,   N,   N],
   /- Ghost   -/ [IMM, N,   N,   N,   N,   N,   N,   N,   N,   N,   N,   N,   N,   SE,  N],
   /- Dragon  -/ [N,   N,   N,   N,   N,   N,   N,   N,   N,   N,   N,   N,   N,   N,   SE]]

/-- Source `typeIndex.get(t)` (the `Map` built from `TYPE_ORDER`). -/
def typeIndex (t : PokemonType) : Option ℕ :=
  TYPE_ORDER.indexOf? t

/-- Source `getTypeEffectiveness`: chart lookup, defaulting to `N` for an unknown
type (unreachable for the fifteen constructors; `getD` likewise only defaults
out of range, which does not happen for valid indices). -/
def getTypeEffectiveness (atkType defType : PokemonType) : ℚ :=
  match typeIndex atkType, typeIndex defType with
  | some ai, some di => (CHART.getD ai []).getD di N
  | _, _ => N

/-- Source `getTypeMultiplier`: for each attacker type, multiply effectiveness over
all defender types; keep the best (largest) product, starting from `bestM = 0`. -/
def getTypeMultiplier (attackerTypes defenderTypes : List PokemonType) : ℚ :=
  attackerTypes.foldl
    (fun bestM atkType =>
      let m := defenderTypes.foldl
        (fun m defType => m * getTypeEffectiveness atkType defType) 1
      if bestM < m then m else bestM)
    0

/-! ## Base stats and evolution (`combat.ts`) -/

/-- Source `PieceStats` record. -/
structure PieceStats where
  hp : ℤ
  die : ℕ
  attack : ℤ
  defense : ℤ
  deriving DecidableEq

/-- Source `BASE_STATS` per class. -/
def BASE_STATS : PieceClass → PieceStats
  | .Pawn   => ⟨33, 6, 1, 3⟩
  | .Knight => ⟨41, 6, 1, 3⟩
  | .Bishop => ⟨41, 6, 1, 3⟩
  | .Rook   => ⟨46, 6, 1, 3⟩
  | .Queen  => ⟨51, 6, 1, 3⟩
  | .King   => ⟨36, 6, 1, 3⟩

/-- Source `DIE_PROGRESSION = [6, 8, 10, 12]`. -/
def DIE_PROGRESSION : List ℕ := [6, 8, 10, 12]

/-- Source `upgradeDie`: next die in the progression; unknown or maximal dies are
returned unchanged. -/
def upgradeDie (currentDie : ℕ) : ℕ :=
  match DIE_PROGRESSION.indexOf? currentDie with
  | none => currentDie
  | some idx =>
      if idx = DIE_PROGRESSION.length - 1 then currentDie
      else DIE_PROGRESSION.getD (idx + 1) currentDie

/-- Target stat of the species modifier (`'attack' | 'defense'`). -/
inductive StatTarget
  | attack | defense
  deriving DecidableEq

/-- The `for (let i = 0; i < stage; i++)` evolution loop body:
`hp += 4; die = upgradeDie(die)`. -/
def evolveSteps : PieceStats → ℕ → PieceStats
  | base, 0 => base
  | base, n + 1 => evolveSteps { base with hp := base.hp + 4, die := upgradeDie base.die } n

/-- Source `getStatsWithEvolution`: class base stats, pawn-only evolution loop,
species modifier on the target stat, Mewtwo-King defense penalty, and final
clamping of attack and defense at 0. -/
def getStatsWithEvolution (pieceClass : PieceClass) (stage : ℕ)
    (speciesMod : ℤ) (speciesModTarget : StatTarget)
    (isMewtwoKing : Bool := false) : PieceStats :=
  let base := BASE_STATS pieceClass
  let base := if pieceClass = .Pawn then evolveSteps base stage else base
  let base :=
    match speciesModTarget with
    | .attack => { base with attack := base.attack + speciesMod }
    | .defense => { base with defense := base.defense + speciesMod }
  let base := if isMewtwoKing then { base with defense := base.defense - 1 } else base
  { base with attack := max 0 base.attack, defense := max 0 base.defense }

/-! ## Combat resolver (`combat.ts`, `resolveCombat`)

The source draws `rollDie(sides)` from `Math.random()`; the embedding consumes
a pre-drawn stream `rolls : ℕ → ℕ` in call order (index `idx`).  The unbounded
`while` loop gets a fuel parameter; `none` means the fuel ran out while the
source loop would still be running. -/

/-- Source `CombatantInfo` record. -/
structure CombatantInfo where
  name : String
  types : List PokemonType
  hp : ℤ
  attack : ℤ
  defense : ℤ
  die : ℕ
  deriving DecidableEq

/-- One combat log entry. -/
structure CombatLogEntry where
  turn : ℕ
  attacker : String
  roll : ℕ
  damage : ℤ
  targetHpAfter : ℤ
  deriving DecidableEq

/-- Source `'attacker' | 'defender'`. -/
inductive CombatWinner
  | attacker | defender
  deriving DecidableEq

/-- Source `CombatResult` record. -/
structure CombatResult where
  winner : CombatWinner
  log : List CombatLogEntry
  attackerHpRemaining : ℤ
  defenderHpRemaining : ℤ
  deriving DecidableEq

/-- Mutable locals of the `resolveCombat` loop. -/
structure CombatLoopState where
  aHp : ℤ
  dHp : ℤ
  turn : ℕ
  defenderHitCount : ℕ
  attackerHitCount : ℕ
  idx : ℕ
  log : List CombatLogEntry
  deriving DecidableEq

/-- The `while (aHp > 0 && dHp > 0)` loop of `resolveCombat`: the attacker
strikes, the loop breaks if the defender drops to 0 or below, otherwise the
defender counter-strikes and the next round begins.  Guard flags are the
source's hit counters (`defenderHitCount === 0`, `attackerHitCount === 0`). -/
def combatLoop (attacker defender : CombatantInfo) (mAttacker mDefender : ℚ)
    (rolls : ℕ → ℕ) : ℕ → CombatLoopState → Option CombatLoopState
  | 0, st => if 0 < st.aHp ∧ 0 < st.dHp then none else some st
  | fuel + 1, st =>
    if 0 < st.aHp ∧ 0 < st.dHp then
      let turn := st.turn + 1
      let aRoll := rolls st.idx
      let aDmg := calculateDamage aRoll attacker.attack defender.defense mAttacker
        (st.defenderHitCount == 0)
      let dHp2 := st.dHp - aDmg
      let log1 := st.log ++ [⟨turn, attacker.name, aRoll, aDmg, max 0 dHp2⟩]
      if dHp2 ≤ 0 then
        some { st with dHp := dHp2,
                       turn := turn,
                       defenderHitCount := st.defenderHitCount + 1,
                       idx := st.idx + 1,
                       log := log1 }
      else
        let dRoll := rolls (st.idx + 1)
        let dDmg := calculateDamage dRoll defender.attack attacker.defense mDefender
          (st.attackerHitCount == 0)
        let aHp2 := st.aHp - dDmg
        combatLoop attacker defender mAttacker mDefender rolls fuel
          { aHp := aHp2, dHp := dHp2, turn := turn,
            defenderHitCount := st.defenderHitCount + 1,
            attackerHitCount := st.attackerHitCount + 1,
            idx := st.idx + 2,
            log := log1 ++ [⟨turn, defender.name, dRoll, dDmg, max 0 aHp2⟩] }
    else some st

/-- Source `resolveCombat`: run the loop from the combatants' HP, then form the
result (`winner = dHp <= 0 ? 'attacker' : 'defender'`, clamped final HP). -/
def resolveCombat (attacker defender : CombatantInfo)
    (rolls : ℕ → ℕ) (fuel : ℕ) : Option CombatResult :=
  let mAttacker := getTypeMultiplier attacker.types defender.types
  let mDefender := getTypeMultiplier defender.types attacker.types
  (combatLoop attacker defender mAttacker mDefender rolls fuel
      ⟨attacker.hp, defender.hp, 0, 0, 0, 0, []⟩).map
    fun st =>
      ⟨if st.dHp ≤ 0 then .attacker else .defender, st.log,
       max 0 st.aHp, max 0 st.dHp⟩

/-! ## Win-probability calculator (`balance.ts`)

`damageDistribution` groups the `die` equally likely rolls by damage value and
the source then iterates over the grouped entries, summing `f(dmg) * p` where
`p` aggregates `1/die` per roll.  The embedding performs the identical sum
roll-by-roll (weight `1/die` each), which is the same rational number: the
summand depends only on the damage of the roll.

The DP table `dp[hA][hB]` (sizes `hpA+1 × hpB+1`) becomes a total function
`ℤ → ℤ → ℚ` built by the same nested loops: the outer loop runs `hB = 1..hpB`,
the inner loop `hA = 1..hpA`, and each cell is written exactly once from the
already-written part of the table.  `hpA`, `hpB` are `ℕ` (loop bounds). -/

/-- Source `CombatConfig` record. -/
structure CombatConfig where
  hpA : ℕ
  dieA : ℕ
  attackA : ℤ
  defenseA : ℤ
  hpB : ℕ
  dieB : ℕ
  attackB : ℤ
  defenseB : ℤ
  typeMultiplierAtoB : ℚ
  typeMultiplierBtoA : ℚ

/-- Damage dealt by A to B on a given roll (A's die, A's attack, B's defense,
A-to-B multiplier, B's guard flag). -/
def dmgAtoB (cfg : CombatConfig) (guard : Bool) (roll : ℤ) : ℤ :=
  calculateDamage roll cfg.attackA cfg.defenseB cfg.typeMultiplierAtoB guard

/-- Damage dealt by B to A on a given roll. -/
def dmgBtoA (cfg : CombatConfig) (guard : Bool) (roll : ℤ) : ℤ :=
  calculateDamage roll cfg.attackB cfg.defenseA cfg.typeMultiplierBtoA guard

/-- DP tables are total functions; cells outside `[0,hpA] × [0,hpB]` are never
read by the fill on the configurations considered. -/
def Tbl : Type := ℤ → ℤ → ℚ

/-- The table right after initialization: all zeros except the base row
`dp[hA][0] = 1` for `hA = 1..hpA`. -/
def initTable (hpA : ℕ) : Tbl := fun hA hB =>
  if hB = 0 ∧ 1 ≤ hA ∧ hA ≤ (hpA : ℤ) then 1 else 0

/-- Source `pWin` accumulated for state `(hA, hB)`: immediate wins (`newHB <= 0`,
weight `pA`) plus transitions into already-resolved states
(`pA * pB * dp[newHA][newHB]`); the `newHA <= 0` branch contributes 0 and the
self-referencing pair (`newHA === hA && newHB === hB`) is excluded (it is
accumulated in `pLoop` instead). -/
def pWinAt (cfg : CombatConfig) (t : Tbl) (hA hB : ℤ) : ℚ :=
  ∑ a ∈ Finset.Icc (1 : ℤ) (cfg.dieA : ℤ), (1 / (cfg.dieA : ℚ)) *
    (if hB - dmgAtoB cfg false a ≤ 0 then 1
     else
       ∑ b ∈ Finset.Icc (1 : ℤ) (cfg.dieB : ℤ), (1 / (cfg.dieB : ℚ)) *
         (if hA - dmgBtoA cfg false b ≤ 0 then 0
          else if hA - dmgBtoA cfg false b = hA ∧ hB - dmgAtoB cfg false a = hB then 0
          else t (hA - dmgBtoA cfg false b) (hB - dmgAtoB cfg false a)))

/-- Source `pLoop` accumulated for state `(hA, hB)`: the weight of the
self-referencing transitions (both survive with unchanged HP). -/
def pLoopAt (cfg : CombatConfig) (hA hB : ℤ) : ℚ :=
  ∑ a ∈ Finset.Icc (1 : ℤ) (cfg.dieA : ℤ), (1 / (cfg.dieA : ℚ)) *
    (if hB - dmgAtoB cfg false a ≤ 0 then 0
     else
       ∑ b ∈ Finset.Icc (1 : ℤ) (cfg.dieB : ℤ), (1 / (cfg.dieB : ℚ)) *
         (if hA - dmgBtoA cfg false b ≤ 0 then 0
          else if hA - dmgBtoA cfg false b = hA ∧ hB - dmgAtoB cfg false a = hB then 1
          else 0))

/-- The value written into `dp[hA][hB]`:
`pLoop >= 1.0 ? 0 : pWin / (1 - pLoop)`. -/
def cellValue (cfg : CombatConfig) (t : Tbl) (hA hB : ℤ) : ℚ :=
  if 1 ≤ pLoopAt cfg hA hB then 0
  else pWinAt cfg t hA hB / (1 - pLoopAt cfg hA hB)

/-- One assignment `dp[hA][hB] = v`. -/
def writeCell (t : Tbl) (hA hB : ℤ) (v : ℚ) : Tbl :=
  fun x y => if x = hA ∧ y = hB then v else t x y

/-- The inner loop `for (hA_val = 1; hA_val <= n; hA_val++)` for a fixed
column `hB`. -/
def fillRow (cfg : CombatConfig) (hB : ℤ) : Tbl → ℕ → Tbl
  | t, 0 => t
  | t, n + 1 =>
    let t2 := fillRow cfg hB t n
    writeCell t2 ((n + 1 : ℕ) : ℤ) hB (cellValue cfg t2 ((n + 1 : ℕ) : ℤ) hB)

/-- The outer loop `for (hB_val = 1; hB_val <= m; hB_val++)`, each iteration
running the full inner loop `hA = 1..hpA`. -/
def fillTable (cfg : CombatConfig) : Tbl → ℕ → Tbl
  | t, 0 => t
  | t, m + 1 => fillRow cfg ((m + 1 : ℕ) : ℤ) (fillTable cfg t m) cfg.hpA

/-- The completed guard-off DP table of `calculateWinProbability`. -/
def dpTable (cfg : CombatConfig) : Tbl :=
  fillTable cfg (initTable cfg.hpA) cfg.hpB

/-- Source `calculateWinProbability`: one extra round with both guards active
(guard-on damage distributions), transitioning into the guard-off table. -/
def calculateWinProbability (cfg : CombatConfig) : ℚ :=
  ∑ a ∈ Finset.Icc (1 : ℤ) (cfg.dieA : ℤ), (1 / (cfg.dieA : ℚ)) *
    (if (cfg.hpB : ℤ) - dmgAtoB cfg true a ≤ 0 then 1
     else
       ∑ b ∈ Finset.Icc (1 : ℤ) (cfg.dieB : ℤ), (1 / (cfg.dieB : ℚ)) *
         (if (cfg.hpA : ℤ) - dmgBtoA cfg true b ≤ 0 then 0
          else dpTable cfg ((cfg.hpA : ℤ) - dmgBtoA cfg true b)
                 ((cfg.hpB : ℤ) - dmgAtoB cfg true a)))

/-! ## Board and pieces (`chess.ts`, `game.ts`) -/

/-- Source `GamePiece` record.  The string id `piece_${n}` is modelled by the counter
value `n` itself (the map `n ↦ "piece_" ++ n` is injective, so nothing about
identity is lost). -/
structure GamePiece where
  id : ℕ
  pokemonId : ℕ
  pieceClass : PieceClass
  owner : Owner
  currentHp : ℤ
  maxHp : ℤ
  attack : ℤ
  defense : ℤ
  die : ℕ
  stage : ℕ
  combatsWon : ℕ
  speciesMod : ℤ
  position : Option Pos

/-- Source `BoardState`: the 8×8 grid as a total function; out-of-range squares hold
`none`. -/
def BoardState : Type := ℤ → ℤ → Option GamePiece

/-- Source `Move` record (`isEnPassant` / `isCastle` are declared in the source but
never written or read, and are omitted). -/
structure Move where
  fromSq : Pos
  toSq : Pos
  isCapture : Bool
  promotion : Option PieceClass
  deriving DecidableEq

/-- Source `inBounds(r, c)`. -/
def inBounds (r c : ℤ) : Bool :=
  decide (0 ≤ r) && decide (r < 8) && decide (0 ≤ c) && decide (c < 8)

/-- Source `getPieceAt`: bounds-checked read. -/
def getPieceAt (board : BoardState) (r c : ℤ) : Option GamePiece :=
  if inBounds r c then board r c else none

/-- Source `isEnemy(piece, other)`. -/
def isEnemy (piece : GamePiece) (other : Option GamePiece) : Bool :=
  match other with
  | none => false
  | some o => o.owner ≠ piece.owner

/-- Source `isEmpty(board, r, c)`. -/
def isEmpty (board : BoardState) (r c : ℤ) : Bool :=
  inBounds r c && (board r c).isNone

/-- Pawn promotion targets, in source order. -/
def PROMO_CLASSES : List PieceClass := [.Queen, .Rook, .Knight, .Bishop]

/-- Source `generatePawnMoves`: single push (with promotion fan-out on the far rank),
double push from the start rank, diagonal captures (with promotion fan-out).
The moves are produced in the source's `push` order. -/
def generatePawnMoves (board : BoardState) (piece : GamePiece) (pos : Pos) :
    List Move :=
  let dir : ℤ := if piece.owner = .white then -1 else 1
  let startRow : ℤ := if piece.owner = .white then 6 else 1
  let promoRow : ℤ := if piece.owner = .white then 0 else 7
  let fwd := pos.row + dir
  let forwardMoves :=
    if inBounds fwd pos.col && isEmpty board fwd pos.col then
      (if fwd = promoRow then
        PROMO_CLASSES.map (fun promo =>
          { fromSq := pos, toSq := ⟨fwd, pos.col⟩, isCapture := false,
            promotion := some promo })
      else
        [{ fromSq := pos, toSq := ⟨fwd, pos.col⟩, isCapture := false,
           promotion := none }]) ++
      (if pos.row = startRow && isEmpty board (pos.row + 2 * dir) pos.col then
        [{ fromSq := pos, toSq := ⟨pos.row + 2 * dir, pos.col⟩, isCapture := false,
           promotion := none }]
      else [])
    else []
  let captureMoves :=
    ([-1, 1] : List ℤ).flatMap fun dc =>
      let nr := fwd
      let nc := pos.col + dc
      if inBounds nr nc && isEnemy piece (getPieceAt board nr nc) then
        if nr = promoRow then
          PROMO_CLASSES.map (fun promo =>
            { fromSq := pos, toSq := ⟨nr, nc⟩, isCapture := true,
              promotion := some promo })
        else
          [{ fromSq := pos, toSq := ⟨nr, nc⟩, isCapture := true, promotion := none }]
      else []
  forwardMoves ++ captureMoves

/-- The eight knight offsets, in source order. -/
def KNIGHT_OFFSETS : List (ℤ × ℤ) :=
  [(-2, -1), (-2, 1), (-1, -2), (-1, 2), (1, -2), (1, 2), (2, -1), (2, 1)]

/-- Source `generateKnightMoves`. -/
def generateKnightMoves (board : BoardState) (piece : GamePiece) (pos : Pos) :
    List Move :=
  KNIGHT_OFFSETS.flatMap fun d =>
    let nr := pos.row + d.1
    let nc := pos.col + d.2
    if inBounds nr nc then
      match getPieceAt board nr nc with
      | none => [{ fromSq := pos, toSq := ⟨nr, nc⟩, isCapture := false, promotion := none }]
      | some target =>
        if target.owner ≠ piece.owner then
          [{ fromSq := pos, toSq := ⟨nr, nc⟩, isCapture := true, promotion := none }]
        else []
    else []

/-- The ray walk of `generateSlidingMoves` (`while (inBounds(r, c))`): along a
fixed nonzero direction at most 8 consecutive squares are in bounds, so fuel 8
realizes the source loop exactly. -/
def slideRay (board : BoardState) (piece : GamePiece) (pos : Pos) (dr dc : ℤ) :
    ℕ → ℤ → ℤ → List Move
  | 0, _, _ => []
  | n + 1, r, c =>
    if inBounds r c then
      match getPieceAt board r c with
      | none =>
        { fromSq := pos, toSq := ⟨r, c⟩, isCapture := false, promotion := none } ::
          slideRay board piece pos dr dc n (r + dr) (c + dc)
      | some target =>
        if target.owner ≠ piece.owner then
          [{ fromSq := pos, toSq := ⟨r, c⟩, isCapture := true, promotion := none }]
        else []
    else []

/-- Source `generateSlidingMoves` over a direction list. -/
def generateSlidingMoves (board : BoardState) (piece : GamePiece) (pos : Pos)
    (directions : List (ℤ × ℤ)) : List Move :=
  directions.flatMap fun d =>
    slideRay board piece pos d.1 d.2 8 (pos.row + d.1) (pos.col + d.2)

/-- The king's 3×3 neighbourhood scan (`dr = -1..1`, `dc = -1..1`, skipping
`(0,0)`), in source order. -/
def KING_OFFSETS : List (ℤ × ℤ) :=
  [(-1, -1), (-1, 0), (-1, 1), (0, -1), (0, 1), (1, -1), (1, 0), (1, 1)]

/-- Source `generateKingMoves`. -/
def generateKingMoves (board : BoardState) (piece : GamePiece) (pos : Pos) :
    List Move :=
  KING_OFFSETS.flatMap fun d =>
    let nr := pos.row + d.1
    let nc := pos.col + d.2
    if inBounds nr nc then
      match getPieceAt board nr nc with
      | none => [{ fromSq := pos, toSq := ⟨nr, nc⟩, isCapture := false, promotion := none }]
      | some target =>
        if target.owner ≠ piece.owner then
          [{ fromSq := pos, toSq := ⟨nr, nc⟩, isCapture := true, promotion := none }]
        else []
    else []

/-- Bishop directions. -/
def BISHOP_DIRS : List (ℤ × ℤ) := [(-1, -1), (-1, 1), (1, -1), (1, 1)]

/-- Rook directions. -/
def ROOK_DIRS : List (ℤ × ℤ) := [(-1, 0), (1, 0), (0, -1), (0, 1)]

/-- Queen directions. -/
def QUEEN_DIRS : List (ℤ × ℤ) :=
  [(-1, -1), (-1, 1), (1, -1), (1, 1), (-1, 0), (1, 0), (0, -1), (0, 1)]

/-- Source `getPseudoLegalMoves`: class dispatch. -/
def getPseudoLegalMoves (board : BoardState) (piece : GamePiece) (pos : Pos) :
    List Move :=
  match piece.pieceClass with
  | .Pawn => generatePawnMoves board piece pos
  | .Knight => generateKnightMoves board piece pos
  | .Bishop => generateSlidingMoves board piece pos BISHOP_DIRS
  | .Rook => generateSlidingMoves board piece pos ROOK_DIRS
  | .Queen => generateSlidingMoves board piece pos QUEEN_DIRS
  | .King => generateKingMoves board piece pos

/-- Source `findKing`: row-major scan for the first own king. -/
def findKing (board : BoardState) (owner : Owner) : Option Pos :=
  (List.range 8).findSome? fun r =>
    (List.range 8).findSome? fun c =>
      match board (r : ℤ) (c : ℤ) with
      | some p =>
        if p.owner = owner ∧ p.pieceClass = .King then some ⟨(r : ℤ), (c : ℤ)⟩
        else none
      | none => none

/-- Source `isSquareAttacked`: some piece of `byPlayer` has a pseudo-legal *capture*
targeting `pos`. -/
def isSquareAttacked (board : BoardState) (pos : Pos) (byPlayer : Owner) : Bool :=
  (List.range 8).any fun r =>
    (List.range 8).any fun c =>
      match board (r : ℤ) (c : ℤ) with
      | some p =>
        decide (p.owner = byPlayer) &&
          (getPseudoLegalMoves board p ⟨(r : ℤ), (c : ℤ)⟩).any fun m =>
            decide (m.toSq.row = pos.row) && decide (m.toSq.col = pos.col) && m.isCapture
      | none => false

/-- Source `isInCheck`. -/
def isInCheck (board : BoardState) (player : Owner) : Bool :=
  match findKing board player with
  | none => false
  | some kingPos => isSquareAttacked board kingPos player.opponent

/-- Source `applyMove`: copy the board, blank the source square, then write the moved
piece (position updated; class replaced on promotion) at the destination; the
destination write happens second, hence takes precedence. -/
def applyMove (board : BoardState) (move : Move) : BoardState :=
  match board move.fromSq.row move.fromSq.col with
  | none => board
  | some piece =>
    let movedPiece :=
      { piece with
        position := some ⟨move.toSq.row, move.toSq.col⟩,
        pieceClass :=
          match move.promotion with
          | some promo => promo
          | none => piece.pieceClass }
    fun r c =>
      if r = move.toSq.row ∧ c = move.toSq.col then some movedPiece
      else if r = move.fromSq.row ∧ c = move.fromSq.col then none
      else board r c

/-- Source `getLegalMoves`: pseudo-legal moves whose (optimistically applied) result
leaves the mover's own king out of check. -/
def getLegalMoves (board : BoardState) (piece : GamePiece) (pos : Pos) :
    List Move :=
  (getPseudoLegalMoves board piece pos).filter fun move =>
    !(isInCheck (applyMove board move) piece.owner)

/-- Whether `player` has some piece with a nonempty legal-move list (the scan
shared by `isCheckmate` and `isStalemate`). -/
def hasLegalMove (board : BoardState) (player : Owner) : Bool :=
  (List.range 8).any fun r =>
    (List.range 8).any fun c =>
      match board (r : ℤ) (c : ℤ) with
      | some p =>
        decide (p.owner = player) &&
          !(getLegalMoves board p ⟨(r : ℤ), (c : ℤ)⟩).isEmpty
      | none => false

/-- Source `isCheckmate`: in check and no legal move. -/
def isCheckmate (board : BoardState) (player : Owner) : Bool :=
  isInCheck board player && !hasLegalMove board player

/-- Source `isStalemate`: not in check and no legal move. -/
def isStalemate (board : BoardState) (player : Owner) : Bool :=
  !(isInCheck board player) && !hasLegalMove board player

/-- Source `createEmptyBoard`. -/
def createEmptyBoard : BoardState := fun _ _ => none

/-! ## Game state machine (`game.ts`)

The Pokémon catalogue (`getPokemonById`) and the percentile classifier
(`getClassification`) are pure lookups into static data packages; they are
abstracted as an environment and every theorem holds for every environment. -/

/-- The catalogue fields the kernel reads. -/
structure Pokemon where
  id : ℕ
  name : String
  types : List PokemonType

/-- The classifier fields the kernel reads. -/
structure Classification where
  speciesMod : ℤ
  speciesModTarget : StatTarget

/-- Environment of static-data lookups. -/
structure Env where
  getPokemonById : ℕ → Option Pokemon
  getClassification : ℕ → Option Classification

/-- Source `TeamSlot` record. -/
structure TeamSlot where
  pokemonId : ℕ
  pieceClass : PieceClass

/-- Source `GamePhase`. -/
inductive GamePhase
  | playing | combat | checkmate | stalemate
  deriving DecidableEq

/-- The `pendingCombat` snapshot. -/
structure PendingCombat where
  attacker : GamePiece
  defender : GamePiece
  move : Move

/-- Source `GameState` record. -/
structure GameState where
  board : BoardState
  currentPlayer : Owner
  phase : GamePhase
  moveHistory : List Move
  turnNumber : ℕ
  pendingCombat : Option PendingCombat
  lastCombatResult : Option CombatResult
  winner : Option Owner

/-- One board-square assignment (`newBoard[r][c] = v` on the copied grid). -/
def boardUpd (board : BoardState) (r c : ℤ) (v : Option GamePiece) : BoardState :=
  fun x y => if x = r ∧ y = c then v else board x y

/-- Source `PIECE_ORDER`. -/
def PIECE_ORDER : List PieceClass :=
  [.Rook, .Knight, .Bishop, .Queen, .King, .Bishop, .Knight, .Rook]

/-- Source `createGamePiece`: catalogue lookup (fatal if absent), classification
defaults, Mewtwo-King flag, stage-0 stats; `nextPieceId()` pre-increments the
global counter, so the piece receives id `counter + 1`. -/
def createGamePiece (env : Env) (slot : TeamSlot) (owner : Owner)
    (position : Pos) (pieceId : ℕ) : Except String GamePiece :=
  match env.getPokemonById slot.pokemonId with
  | none => .error ("Pokemon " ++ toString slot.pokemonId ++ " no encontrado")
  | some pokemon =>
    let classification := env.getClassification slot.pokemonId
    let speciesMod := (classification.map (fun c => c.speciesMod)).getD 0
    let speciesModTarget := (classification.map (fun c => c.speciesModTarget)).getD .defense
    let isMewtwoKing := decide (pokemon.id = 150) && decide (slot.pieceClass = .King)
    let stats := getStatsWithEvolution slot.pieceClass 0 speciesMod speciesModTarget isMewtwoKing
    .ok { id := pieceId, pokemonId := slot.pokemonId, pieceClass := slot.pieceClass,
          owner := owner, currentHp := stats.hp, maxHp := stats.hp,
          attack := stats.attack, defense := stats.defense, die := stats.die,
          stage := 0, combatsWon := 0, speciesMod := speciesMod,
          position := some position }

/-- One `forEach((slot, col) => board[row][col] = createGamePiece(...))`
placement pass; `limitCols` models the `col < 8` guard of the pawn rows
(skipped slots create no piece and advance no id). -/
def placeSlots (env : Env) (owner : Owner) (row : ℤ) (limitCols : Bool) :
    List TeamSlot → ℕ → BoardState → ℕ → Except String (BoardState × ℕ)
  | [], _, board, counter => .ok (board, counter)
  | slot :: rest, col, board, counter =>
    if limitCols && decide (8 ≤ col) then
      placeSlots env owner row limitCols rest (col + 1) board counter
    else
      match createGamePiece env slot owner ⟨row, (col : ℤ)⟩ (counter + 1) with
      | .error e => .error e
      | .ok piece =>
        placeSlots env owner row limitCols rest (col + 1)
          (boardUpd board row (col : ℤ) (some piece)) (counter + 1)

/-- The back-row selection: each `PIECE_ORDER` occurrence re-filters the
*original* slot list by class and shifts the fresh copy, so it places the
first slot of that class (the shift never mutates the team list). -/
def backRowSlots (slots : List TeamSlot) : List TeamSlot :=
  PIECE_ORDER.filterMap fun cls =>
    (slots.filter fun s => decide (s.pieceClass = cls)).head?

/-- Source `setupBoard`: white back rank on row 7, white pawns on row 6, black back
rank on row 0, black pawns on row 1; the global id counter is reset to 0. -/
def setupBoard (env : Env) (whiteSlots blackSlots : List TeamSlot) :
    Except String BoardState :=
  let whitePawns := whiteSlots.filter fun s => decide (s.pieceClass = .Pawn)
  let whiteBack := backRowSlots whiteSlots
  let blackPawns := blackSlots.filter fun s => decide (s.pieceClass = .Pawn)
  let blackBack := backRowSlots blackSlots
  match placeSlots env .white 7 false whiteBack 0 createEmptyBoard 0 with
  | .error e => .error e
  | .ok (b1, c1) =>
    match placeSlots env .white 6 true whitePawns 0 b1 c1 with
    | .error e => .error e
    | .ok (b2, c2) =>
      match placeSlots env .black 0 false blackBack 0 b2 c2 with
      | .error e => .error e
      | .ok (b3, c3) =>
        match placeSlots env .black 1 true blackPawns 0 b3 c3 with
        | .error e => .error e
        | .ok (b4, _) => .ok b4

/-- Source `createGame`. -/
def createGame (env : Env) (whiteSlots blackSlots : List TeamSlot) :
    Except String GameState :=
  match setupBoard env whiteSlots blackSlots with
  | .error e => .error e
  | .ok board =>
    .ok { board := board, currentPlayer := .white, phase := .playing,
          moveHistory := [], turnNumber := 1, pendingCombat := none,
          lastCombatResult := none, winner := none }

/-- The legality test of `makeMove`: some legal move of the source piece has
the same destination and the same promotion field. -/
def matchesLegal (legalMoves : List Move) (move : Move) : Bool :=
  legalMoves.any fun m =>
    decide (m.toSq.row = move.toSq.row) && decide (m.toSq.col = move.toSq.col) &&
      decide (m.promotion = move.promotion)

/-- Source `newBoard.some(row => row.some(...))`: whether a king of `owner` is on the
board. -/
def boardHasKing (board : BoardState) (owner : Owner) : Bool :=
  (List.range 8).any fun r =>
    (List.range 8).any fun c =>
      match board (r : ℤ) (c : ℤ) with
      | some p => decide (p.owner = owner) && decide (p.pieceClass = .King)
      | none => false

/-- Source `advanceTurn`: swap the side, re-evaluate check-based terminal phases on
the next player, then — overriding that result — declare `checkmate` for the
opponent of any side whose king is no longer on the board; the turn counter
advances when black just moved. -/
def advanceTurn (state : GameState) (newBoard : BoardState) (move : Move) :
    GameState :=
  let nextPlayer := state.currentPlayer.opponent
  let checkPhase : GamePhase × Option Owner :=
    if isCheckmate newBoard nextPlayer then (.checkmate, some state.currentPlayer)
    else if isStalemate newBoard nextPlayer then (.stalemate, none)
    else (.playing, none)
  let whiteKingExists := boardHasKing newBoard .white
  let blackKingExists := boardHasKing newBoard .black
  let finalPhase : GamePhase × Option Owner :=
    if !whiteKingExists then (.checkmate, some .black)
    else if !blackKingExists then (.checkmate, some .white)
    else checkPhase
  { state with
    board := newBoard,
    currentPlayer := nextPlayer,
    phase := finalPhase.1,
    moveHistory := state.moveHistory ++ [move],
    turnNumber := state.turnNumber + (if state.currentPlayer = .black then 1 else 0),
    pendingCombat := none,
    winner := finalPhase.2 }

/-- Source `makeMove`: reject a missing or enemy source piece, reject a move that
matches no legal move; a capture snapshots attacker/defender into
`pendingCombat` (board untouched, side not swapped); a quiet move is applied
and the turn advances. -/
def makeMove (state : GameState) (move : Move) : Except String GameState :=
  match state.board move.fromSq.row move.fromSq.col with
  | none => .error "Movimiento inválido: pieza no válida"
  | some piece =>
    if piece.owner ≠ state.currentPlayer then
      .error "Movimiento inválido: pieza no válida"
    else if !(matchesLegal (getLegalMoves state.board piece move.fromSq) move) then
      .error "Movimiento ilegal"
    else if move.isCapture then
      match state.board move.toSq.row move.toSq.col with
      | none => .error "No hay pieza para capturar"
      | some defender =>
        .ok { state with phase := .combat,
                         pendingCombat := some ⟨piece, defender, move⟩ }
    else
      .ok (advanceTurn state (applyMove state.board move) move)

/-- The pawn-evolution block of `resolvePendingCombat` (applied identically to
a winning attacker and a winning defender): if the win counter is at most 2,
the stage is below 2 and the win counter exceeds the stage, advance the stage
and recompute HP (full heal), attack, defense and die from
`getStatsWithEvolution`. -/
def pawnMaybeEvolve (env : Env) (piece : GamePiece) : GamePiece :=
  if piece.pieceClass = .Pawn then
    if (piece.combatsWon ≤ 2 ∧ piece.stage < 2) ∧ piece.stage < piece.combatsWon then
      let newStage := piece.stage + 1
      let classification := env.getClassification piece.pokemonId
      let sm := (classification.map (fun c => c.speciesMod)).getD 0
      let smTarget := (classification.map (fun c => c.speciesModTarget)).getD .defense
      let newStats := getStatsWithEvolution .Pawn newStage sm smTarget false
      { piece with stage := newStage, maxHp := newStats.hp, currentHp := newStats.hp,
                   attack := newStats.attack, defense := newStats.defense,
                   die := newStats.die }
    else piece
  else piece

/-- Source `resolvePendingCombat`: reject when no combat is pending; otherwise build
the combatant records from the snapshot and the catalogue (the source asserts
the catalogue entries with `!`; a missing entry crashes the call), run the
resolver, place the winner (attacker moves to the destination, defender stays
where it was), remove the loser, record the result and advance the turn.  The
outer `Option` is the resolver's fuel: `none` means the source's combat loop
would still be running. -/
def resolvePendingCombat (env : Env) (rolls : ℕ → ℕ) (fuel : ℕ)
    (state : GameState) : Option (Except String GameState) :=
  match state.pendingCombat with
  | none => some (.error "No hay combate pendiente")
  | some pc =>
    match env.getPokemonById pc.attacker.pokemonId,
          env.getPokemonById pc.defender.pokemonId with
    | some atkPokemon, some defPokemon =>
      let atkInfo : CombatantInfo :=
        ⟨atkPokemon.name, atkPokemon.types, pc.attacker.currentHp,
         pc.attacker.attack, pc.attacker.defense, pc.attacker.die⟩
      let defInfo : CombatantInfo :=
        ⟨defPokemon.name, defPokemon.types, pc.defender.currentHp,
         pc.defender.attack, pc.defender.defense, pc.defender.die⟩
      match resolveCombat atkInfo defInfo rolls fuel with
      | none => none
      | some result =>
        let move := pc.move
        let newBoard :=
          if result.winner = .attacker then
            let updatedAttacker := pawnMaybeEvolve env
              { pc.attacker with currentHp := result.attackerHpRemaining,
                                 combatsWon := pc.attacker.combatsWon + 1,
                                 position := some ⟨move.toSq.row, move.toSq.col⟩ }
            boardUpd (boardUpd state.board move.fromSq.row move.fromSq.col none)
              move.toSq.row move.toSq.col (some updatedAttacker)
          else
            let updatedDefender := pawnMaybeEvolve env
              { pc.defender with currentHp := result.defenderHpRemaining,
                                 combatsWon := pc.defender.combatsWon + 1 }
            boardUpd (boardUpd state.board move.fromSq.row move.fromSq.col none)
              move.toSq.row move.toSq.col (some updatedDefender)
        some (.ok (advanceTurn
          { state with lastCombatResult := some result, pendingCombat := none }
          newBoard move))
    | _, _ => some (.error "Pokemon no encontrado")

/-- The update `resolvePendingCombat` applies to a combat winner — HP set to
the remaining value, win counter incremented, position as given (the
destination square for a winning attacker, the unchanged own square for a
winning defender) — composed with the pawn-evolution block. -/
def winUpdate (env : Env) (p : GamePiece) (hpRemaining : ℤ)
    (pos : Option Pos) : GamePiece :=
  pawnMaybeEvolve env
    { p with currentHp := hpRemaining, combatsWon := p.combatsWon + 1,
             position := pos }

/-- States reachable from `createGame` through accepted transitions of the two
entry points, under any roll streams and combat outcomes. -/
inductive Reachable (env : Env) : GameState → Prop
  | init (whiteSlots blackSlots : List TeamSlot) (s : GameState) :
      createGame env whiteSlots blackSlots = .ok s → Reachable env s
  | move (s : GameState) (m : Move) (s2 : GameState) :
      Reachable env s → makeMove s m = .ok s2 → Reachable env s2
  | combat (s : GameState) (rolls : ℕ → ℕ) (fuel : ℕ) (s2 : GameState) :
      Reachable env s → resolvePendingCombat env rolls fuel s = some (.ok s2) →
      Reachable env s2

/-! ## Specification-side definitions and invariant predicates -/

/-- The combat loop with the guard schedule as the spec words it: each
receiver's one-time guard applies exactly in the first round (`st.turn == 0`
at the round start), not via the source's per-receiver hit counters.  All
other structure matches `combatLoop`; the two are proved equal. -/
def combatLoopFirstRound (attacker defender : CombatantInfo)
    (mAttacker mDefender : ℚ) (rolls : ℕ → ℕ) :
    ℕ → CombatLoopState → Option CombatLoopState
  | 0, st => if 0 < st.aHp ∧ 0 < st.dHp then none else some st
  | fuel + 1, st =>
    if 0 < st.aHp ∧ 0 < st.dHp then
      let turn := st.turn + 1
      let aRoll := rolls st.idx
      let aDmg := calculateDamage aRoll attacker.attack defender.defense mAttacker
        (st.turn == 0)
      let dHp2 := st.dHp - aDmg
      let log1 := st.log ++ [⟨turn, attacker.name, aRoll, aDmg, max 0 dHp2⟩]
      if dHp2 ≤ 0 then
        some { st with dHp := dHp2,
                       turn := turn,
                       defenderHitCount := st.defenderHitCount + 1,
                       idx := st.idx + 1,
                       log := log1 }
      else
        let dRoll := rolls (st.idx + 1)
        let dDmg := calculateDamage dRoll defender.attack attacker.defense mDefender
          (st.turn == 0)
        let aHp2 := st.aHp - dDmg
        combatLoopFirstRound attacker defender mAttacker mDefender rolls fuel
          { aHp := aHp2, dHp := dHp2, turn := turn,
            defenderHitCount := st.defenderHitCount + 1,
            attackerHitCount := st.attackerHitCount + 1,
            idx := st.idx + 2,
            log := log1 ++ [⟨turn, defender.name, dRoll, dDmg, max 0 aHp2⟩] }
    else some st

/-- Source `resolveCombat` built on the first-round guard schedule. -/
def resolveCombatFirstRound (attacker defender : CombatantInfo)
    (rolls : ℕ → ℕ) (fuel : ℕ) : Option CombatResult :=
  let mAttacker := getTypeMultiplier attacker.types defender.types
  let mDefender := getTypeMultiplier defender.types attacker.types
  (combatLoopFirstRound attacker defender mAttacker mDefender rolls fuel
      ⟨attacker.hp, defender.hp, 0, 0, 0, 0, []⟩).map
    fun st =>
      ⟨if st.dHp ≤ 0 then .attacker else .defender, st.log,
       max 0 st.aHp, max 0 st.dHp⟩

/-- Every occupied square stores a piece whose `position` field names exactly
that square. -/
def posConsistent (board : BoardState) : Prop :=
  ∀ r c p, board r c = some p → p.position = some ⟨r, c⟩

/-- No piece id occupies two distinct squares. -/
def noDoubleOccupancy (board : BoardState) : Prop :=
  ∀ r c r2 c2 p q, board r c = some p → board r2 c2 = some q →
    p.id = q.id → r = r2 ∧ c = c2

/-- Occupied squares are inside the 8×8 grid (the embedding counterpart of the
source's fixed-size arrays). -/
def boardWellFormed (board : BoardState) : Prop :=
  ∀ r c, (board r c).isSome → inBounds r c = true

/-- A pending combat snapshot agrees with the live board: the attacker still
sits on the move's source square and the defender on its destination. -/
def pendingConsistent (s : GameState) : Prop :=
  ∀ pc, s.pendingCombat = some pc →
    s.board pc.move.fromSq.row pc.move.fromSq.col = some pc.attacker ∧
    s.board pc.move.toSq.row pc.move.toSq.col = some pc.defender

/-- The inductive invariant of the state machine. -/
def StateInv (s : GameState) : Prop :=
  posConsistent s.board ∧ noDoubleOccupancy s.board ∧
    boardWellFormed s.board ∧ pendingConsistent s

/-! ## Concrete fixtures used by witnesses -/

/-- A catalogue in which every id resolves to a mono-Normal Pokémon. -/
def sampleEnv : Env :=
  { getPokemonById := fun i => some ⟨i, "mon", [.Normal]⟩,
    getClassification := fun _ => none }

/-- White King on (4,4) (1 HP left). -/
def sampleWhiteKing : GamePiece :=
  { id := 1, pokemonId := 1, pieceClass := .King, owner := .white,
    currentHp := 1, maxHp := 36, attack := 0, defense := 0, die := 6,
    stage := 0, combatsWon := 0, speciesMod := 0, position := some ⟨4, 4⟩ }

/-- Black Pawn on (3,3), one diagonal step from the white King. -/
def sampleBlackPawn : GamePiece :=
  { id := 2, pokemonId := 2, pieceClass := .Pawn, owner := .black,
    currentHp := 30, maxHp := 33, attack := 10, defense := 0, die := 6,
    stage := 0, combatsWon := 0, speciesMod := 0, position := some ⟨3, 3⟩ }

/-- Black King on (0,0). -/
def sampleBlackKing : GamePiece :=
  { id := 3, pokemonId := 3, pieceClass := .King, owner := .black,
    currentHp := 36, maxHp := 36, attack := 0, defense := 0, die := 6,
    stage := 0, combatsWon := 0, speciesMod := 0, position := some ⟨0, 0⟩ }

/-- Board holding only the three sample pieces. -/
def sampleBoard : BoardState :=
  boardUpd (boardUpd (boardUpd createEmptyBoard 4 4 (some sampleWhiteKing))
    3 3 (some sampleBlackPawn)) 0 0 (some sampleBlackKing)

/-- The black Pawn's capture of the white King. -/
def sampleCaptureMove : Move :=
  { fromSq := ⟨3, 3⟩, toSq := ⟨4, 4⟩, isCapture := true, promotion := none }

/-- Game state with that capture pending (black just declared it). -/
def sampleCombatState : GameState :=
  { board := sampleBoard, currentPlayer := .black, phase := .combat,
    moveHistory := [sampleCaptureMove], turnNumber := 1,
    pendingCombat := some ⟨sampleBlackPawn, sampleWhiteKing, sampleCaptureMove⟩,
    lastCombatResult := none, winner := none }

/-- A state with a white Rook on (0,0) and a black Pawn on (0,5), white to
move; used for plain capture/acceptance witnesses. -/
def sampleRook : GamePiece :=
  { id := 1, pokemonId := 1, pieceClass := .Rook, owner := .white,
    currentHp := 46, maxHp := 46, attack := 1, defense := 3, die := 6,
    stage := 0, combatsWon := 0, speciesMod := 0, position := some ⟨0, 0⟩ }

/-- The black target piece for the rook capture. -/
def sampleTarget : GamePiece :=
  { id := 2, pokemonId := 2, pieceClass := .Pawn, owner := .black,
    currentHp := 33, maxHp := 33, attack := 1, defense := 3, die := 6,
    stage := 0, combatsWon := 0, speciesMod := 0, position := some ⟨0, 5⟩ }

/-- Board with the rook and its target. -/
def sampleRookBoard : BoardState :=
  boardUpd (boardUpd createEmptyBoard 0 0 (some sampleRook))
    0 5 (some sampleTarget)

/-- Playing state on `sampleRookBoard`, white to move. -/
def sampleRookState : GameState :=
  { board := sampleRookBoard, currentPlayer := .white, phase := .playing,
    moveHistory := [], turnNumber := 1, pendingCombat := none,
    lastCombatResult := none, winner := none }

/-- The rook's capture move to (0,5). -/
def sampleRookCapture : Move :=
  { fromSq := ⟨0, 0⟩, toSq := ⟨0, 5⟩, isCapture := true, promotion := none }

/-- The rook's quiet move to (0,3). -/
def sampleRookQuiet : Move :=
  { fromSq := ⟨0, 0⟩, toSq := ⟨0, 3⟩, isCapture := false, promotion := none }

/-- The one-round outcome of the sample king capture: the pawn rolls 6 and
deals `max 0 (6 + 10 - (0 + 1)) = 15` to the 1-HP king. -/
def sampleCombatResult : CombatResult :=
  ⟨.attacker, [⟨1, "mon", 6, 15, 0⟩], 30, 0⟩

/-- The winning pawn after the win-update and evolution block. -/
def sampleEvolvedPawn : GamePiece :=
  pawnMaybeEvolve sampleEnv
    { sampleBlackPawn with currentHp := 30, combatsWon := 1,
                           position := some ⟨4, 4⟩ }

/-- The board after the sample combat: pawn gone from (3,3), winner on (4,4),
white King removed. -/
def sampleResolvedBoard : BoardState :=
  boardUpd (boardUpd sampleBoard 3 3 none) 4 4 (some sampleEvolvedPawn)

/-- The full state returned by `resolvePendingCombat` on the sample combat. -/
def sampleResolvedState : GameState :=
  advanceTurn
    { sampleCombatState with lastCombatResult := some sampleCombatResult,
                             pendingCombat := none }
    sampleResolvedBoard sampleCaptureMove

/-- A minimal white team: one King, one Pawn. -/
def sampleWhiteTeam : List TeamSlot := [⟨1, .King⟩, ⟨2, .Pawn⟩]

/-- A minimal black team: one King. -/
def sampleBlackTeam : List TeamSlot := [⟨3, .King⟩]

/-- The initial state `createGame` builds from the sample teams (the error
branch is unreachable under `sampleEnv`). -/
def sampleInitState : GameState :=
  match createGame sampleEnv sampleWhiteTeam sampleBlackTeam with
  | .ok s => s
  | .error _ => sampleRookState

/-- The white King as placed by `setupBoard` on square (7,0). -/
def sampleInitKing : GamePiece :=
  { id := 1, pokemonId := 1, pieceClass := .King, owner := .white,
    currentHp := 36, maxHp := 36, attack := 1, defense := 3, die := 6,
    stage := 0, combatsWon := 0, speciesMod := 0, position := some ⟨7, 0⟩ }

/-! # Theorems -/

/-- With a non-negative multiplier, damage is never negative. -/
lemma calculateDamage_nonneg (roll atk dfn : ℤ) (m : ℚ) (g : Bool)
    (hm : 0 ≤ m) : 0 ≤ calculateDamage roll atk dfn m g := by
  unfold calculateDamage
  have h0 : (0 : ℚ) ≤ ((max 0 (roll + atk - (if g then dfn + 1 else dfn)) : ℤ) : ℚ) := by
    exact_mod_cast le_max_left 0 _
  exact Int.le_floor.mpr (by simpa using mul_nonneg h0 hm)

/-- Core monotonicity step shared by the `calculateDamage` lemmas: the damage
is monotone in the clamped raw value as long as the multiplier is
non-negative. -/
lemma calculateDamage_mono_raw (r₁ a₁ d₁ r₂ a₂ d₂ : ℤ) (m : ℚ) (g₁ g₂ : Bool)
    (hm : 0 ≤ m)
    (h : r₁ + a₁ - (if g₁ then d₁ + 1 else d₁) ≤ r₂ + a₂ - (if g₂ then d₂ + 1 else d₂)) :
    calculateDamage r₁ a₁ d₁ m g₁ ≤ calculateDamage r₂ a₂ d₂ m g₂ := by
  unfold calculateDamage
  apply Int.floor_le_floor
  have hmax : (max 0 (r₁ + a₁ - (if g₁ then d₁ + 1 else d₁)) : ℤ) ≤
      max 0 (r₂ + a₂ - (if g₂ then d₂ + 1 else d₂)) := max_le_max (le_refl 0) h
  exact mul_le_mul_of_nonneg_right (by exact_mod_cast hmax) hm

/-- At multiplier 1 the damage is the clamped raw value (used to evaluate
concrete fixtures without rational arithmetic). -/
lemma calculateDamage_mult_one (roll atk dfn : ℤ) (g : Bool) :
    calculateDamage roll atk dfn 1 g =
      max 0 (roll + atk - (if g then dfn + 1 else dfn)) := by
  show ⌊((max 0 (roll + atk - (if g then dfn + 1 else dfn)) : ℤ) : ℚ) * 1⌋ =
    max 0 (roll + atk - (if g then dfn + 1 else dfn))
  rw [mul_one, Int.floor_intCast]

/-- At multiplier 0 the damage is 0. -/
lemma calculateDamage_mult_zero (roll atk dfn : ℤ) (g : Bool) :
    calculateDamage roll atk dfn 0 g = 0 := by
  show ⌊((max 0 (roll + atk - (if g then dfn + 1 else dfn)) : ℤ) : ℚ) * 0⌋ = 0
  rw [mul_zero, Int.floor_zero]

/-- The neutral mono-Normal multiplier evaluates to 1. -/
lemma getTypeMultiplier_normal :
    getTypeMultiplier [.Normal] [.Normal] = 1 := by
  norm_num [getTypeMultiplier, getTypeEffectiveness, typeIndex, TYPE_ORDER,
    CHART, N, List.foldl, List.indexOf?, List.findIdx?]

/-! ## C8: the damage formula and its monotonicity -/

/-- C8.  For every die size `d`, roll `r ∈ [1, d]`, non-negative attack and
defense and non-negative multiplier, `calculateDamage` (guard off) returns
`⌊max 0 (r + atk − def) * mult⌋`; the value is non-negative, non-decreasing
in the roll and the attack, non-increasing in the defense, and the guarded
damage (defense + 1) never exceeds the unguarded damage. -/
theorem c8_calculateDamage_formula (d : ℕ) (r atk dfn : ℤ) (m : ℚ)
    (hr1 : 1 ≤ r) (hrd : r ≤ (d : ℤ)) (hatk : 0 ≤ atk) (hdfn : 0 ≤ dfn)
    (hm : 0 ≤ m) :
    calculateDamage r atk dfn m false = ⌊((max 0 (r + atk - dfn) : ℤ) : ℚ) * m⌋ ∧
    0 ≤ calculateDamage r atk dfn m false ∧
    (∀ r2, r ≤ r2 → calculateDamage r atk dfn m false ≤ calculateDamage r2 atk dfn m false) ∧
    (∀ atk2, atk ≤ atk2 →
      calculateDamage r atk dfn m false ≤ calculateDamage r atk2 dfn m false) ∧
    (∀ dfn2, dfn ≤ dfn2 →
      calculateDamage r atk dfn2 m false ≤ calculateDamage r atk dfn m false) ∧
    calculateDamage r atk dfn m true ≤ calculateDamage r atk dfn m false := by
  refine ⟨rfl, calculateDamage_nonneg r atk dfn m false hm, ?_, ?_, ?_, ?_⟩
  · intro r2 hr2
    exact calculateDamage_mono_raw r atk dfn r2 atk dfn m false false hm (by simp; omega)
  · intro atk2 hatk2
    exact calculateDamage_mono_raw r atk dfn r atk2 dfn m false false hm (by simp; omega)
  · intro dfn2 hdfn2
    exact calculateDamage_mono_raw r atk dfn2 r atk dfn m false false hm (by simp; omega)
  · exact calculateDamage_mono_raw r atk dfn r atk dfn m true false hm (by simp; omega)

/-- Witness for C8 at `d = 6`, `r = 3`, `atk = 2`, `def = 1`, `mult = 3/2`. -/
theorem c8_calculateDamage_formula_witness :
    (0 : ℚ) ≤ 3 / 2 ∧ 0 ≤ calculateDamage 3 2 1 (3 / 2) false :=
  ⟨by norm_num,
   (c8_calculateDamage_formula 6 3 2 1 (3 / 2) (by norm_num) (by norm_num)
     (by norm_num) (by norm_num) (by norm_num)).2.1⟩

/-! ## C3: structure of the combat resolver -/

/-- A state already out of the loop condition is returned unchanged. -/
lemma combatLoop_stuck (a d : CombatantInfo) (mA mB : ℚ) (rolls : ℕ → ℕ)
    (fuel : ℕ) (st : CombatLoopState) (h : ¬(0 < st.aHp ∧ 0 < st.dHp)) :
    combatLoop a d mA mB rolls fuel st = some st := by
  cases fuel <;> simp [combatLoop, h]

/-- On states whose hit counters agree with the round counter (as they do from
the initial state on), the source loop equals the first-round-guard loop. -/
lemma combatLoop_eq_firstRound (a d : CombatantInfo) (mA mB : ℚ)
    (rolls : ℕ → ℕ) :
    ∀ (fuel : ℕ) (st : CombatLoopState),
      st.defenderHitCount = st.turn → st.attackerHitCount = st.turn →
      combatLoop a d mA mB rolls fuel st =
        combatLoopFirstRound a d mA mB rolls fuel st := by
  intro fuel
  induction fuel with
  | zero => intro st _ _; simp [combatLoop, combatLoopFirstRound]
  | succ n ih =>
    intro st hd ha
    by_cases hpos : 0 < st.aHp ∧ 0 < st.dHp
    · simp only [combatLoop, combatLoopFirstRound, if_pos hpos, hd, ha]
      split
      · rfl
      · exact ih _ rfl rfl
    · simp [combatLoop, combatLoopFirstRound, if_neg hpos]

/-- Log-length parity invariant: starting a round with an even log, the loop
ends with an odd log exactly when the defender died (the final round then has
no counter-strike entry). -/
lemma combatLoop_parity (a d : CombatantInfo) (mA mB : ℚ) (rolls : ℕ → ℕ) :
    ∀ (fuel : ℕ) (st st2 : CombatLoopState),
      combatLoop a d mA mB rolls fuel st = some st2 →
      0 < st.aHp → 0 < st.dHp → Even st.log.length →
      (¬ Even st2.log.length ↔ st2.dHp ≤ 0) := by
  intro fuel
  induction fuel with
  | zero =>
    intro st st2 h hA hD _
    simp [combatLoop, hA, hD] at h
  | succ n ih =>
    intro st st2 h hA hD hEven
    rw [combatLoop, if_pos ⟨hA, hD⟩] at h
    by_cases hdie : st.dHp - calculateDamage (rolls st.idx) a.attack d.defense mA
        (st.defenderHitCount == 0) ≤ 0
    · rw [if_pos hdie] at h
      cases h
      constructor
      · intro _
        exact hdie
      · intro _
        simp only [List.length_append, List.length_cons, List.length_nil]
        rw [Nat.even_iff] at hEven ⊢
        omega
    · rw [if_neg hdie] at h
      by_cases hsurv : 0 < st.aHp - calculateDamage (rolls (st.idx + 1)) d.attack
          a.defense mB (st.attackerHitCount == 0)
      · refine ih _ _ h hsurv (not_le.mp hdie) ?_
        simp only [List.length_append, List.length_cons, List.length_nil]
        rw [Nat.even_iff] at hEven ⊢
        omega
      · rw [combatLoop_stuck a d mA mB rolls n _ (fun hcon => hsurv hcon.1)] at h
        cases h
        constructor
        · intro hodd
          refine absurd ?_ hodd
          simp only [List.length_append, List.length_cons, List.length_nil]
          rw [Nat.even_iff] at hEven ⊢
          omega
        · intro hcon
          exact absurd hcon hdie

/-- C3.  `resolveCombat` (a) applies each combatant's one-time guard exactly
on the first hit it receives — the executed loop equals the loop whose guard
flags are "this is round one" — since the attacker strikes every round and the
defender counter-strikes every completed round, hit counts coincide with the
round counter; (b) reports `winner = 'attacker'` iff the defender's final
(clamped) HP is 0, i.e. its true HP dropped to zero or below; (c) from
positive starting HP, ends with an odd log exactly on an attacker win: the
final round of an attacker win logs no counter-strike, every other round logs
strike and counter-strike. -/
theorem c3_resolveCombat_structure (a d : CombatantInfo) (rolls : ℕ → ℕ)
    (fuel : ℕ) :
    (resolveCombat a d rolls fuel = resolveCombatFirstRound a d rolls fuel) ∧
    (∀ res, resolveCombat a d rolls fuel = some res →
      (res.winner = .attacker ↔ res.defenderHpRemaining = 0)) ∧
    (∀ res, resolveCombat a d rolls fuel = some res →
      0 < a.hp → 0 < d.hp →
      (¬ Even res.log.length ↔ res.winner = .attacker)) := by
  refine ⟨?_, ?_, ?_⟩
  · simp only [resolveCombat, resolveCombatFirstRound]
    rw [combatLoop_eq_firstRound a d _ _ rolls fuel ⟨a.hp, d.hp, 0, 0, 0, 0, []⟩
      rfl rfl]
  · intro res hres
    simp only [resolveCombat] at hres
    cases hloop : combatLoop a d (getTypeMultiplier a.types d.types)
        (getTypeMultiplier d.types a.types) rolls fuel
        ⟨a.hp, d.hp, 0, 0, 0, 0, []⟩ with
    | none => rw [hloop] at hres; simp at hres
    | some st =>
      rw [hloop] at hres
      simp only [Option.map_some'] at hres
      cases hres
      by_cases hd : st.dHp ≤ 0
      · simp [hd]
      · simp [hd]
  · intro res hres hA hD
    simp only [resolveCombat] at hres
    cases hloop : combatLoop a d (getTypeMultiplier a.types d.types)
        (getTypeMultiplier d.types a.types) rolls fuel
        ⟨a.hp, d.hp, 0, 0, 0, 0, []⟩ with
    | none => rw [hloop] at hres; simp at hres
    | some st =>
      rw [hloop] at hres
      simp only [Option.map_some'] at hres
      cases hres
      have hpar := combatLoop_parity a d _ _ rolls fuel _ _ hloop hA hD (by simp)
      by_cases hd : st.dHp ≤ 0
      · simpa [hd] using hpar
      · simpa [hd] using hpar

/-- Witness for C3 at a concrete duel (10 HP vs 10 HP, d6, rolls all 4). -/
theorem c3_resolveCombat_structure_witness :
    resolveCombat ⟨"a", [.Normal], 10, 2, 0, 6⟩ ⟨"d", [.Normal], 10, 2, 0, 6⟩
        (fun _ => 4) 3 =
      resolveCombatFirstRound ⟨"a", [.Normal], 10, 2, 0, 6⟩
        ⟨"d", [.Normal], 10, 2, 0, 6⟩ (fun _ => 4) 3 :=
  (c3_resolveCombat_structure ⟨"a", [.Normal], 10, 2, 0, 6⟩
    ⟨"d", [.Normal], 10, 2, 0, 6⟩ (fun _ => 4) 3).1

/-! ## C4: a legal capture only snapshots the combat -/

/-- C4.  In phase `playing`, a legal capturing move (source piece owned by the
active side, matching a legal move, target occupied) makes `makeMove` return
the input state with only two changes: phase becomes the combat-pending phase
and `pendingCombat` holds copies of the attacker, the defender and the move.
The record update shows board, `currentPlayer`, `turnNumber`, `moveHistory`
(and the remaining fields) unchanged: the move is not applied and the side is
not swapped. -/
theorem c4_makeMove_capture_snapshot (s : GameState) (mv : Move)
    (piece defender : GamePiece)
    (hphase : s.phase = .playing)
    (hsrc : s.board mv.fromSq.row mv.fromSq.col = some piece)
    (howner : piece.owner = s.currentPlayer)
    (hlegal : matchesLegal (getLegalMoves s.board piece mv.fromSq) mv = true)
    (hcap : mv.isCapture = true)
    (hdef : s.board mv.toSq.row mv.toSq.col = some defender) :
    makeMove s mv =
      .ok { s with phase := .combat,
                   pendingCombat := some ⟨piece, defender, mv⟩ } := by
  unfold makeMove
  rw [hsrc]
  simp [howner, hlegal, hcap, hdef]

/-- Witness for C4: the white rook legally captures the black pawn on the
sample board; the result keeps the board and side and only records the
pending combat. -/
theorem c4_makeMove_capture_snapshot_witness :
    makeMove sampleRookState sampleRookCapture =
      .ok { sampleRookState with
              phase := .combat,
              pendingCombat := some ⟨sampleRook, sampleTarget, sampleRookCapture⟩ } :=
  c4_makeMove_capture_snapshot sampleRookState sampleRookCapture sampleRook
    sampleTarget rfl rfl rfl (by decide) rfl rfl

/-! ## C5: rejections happen without touching the state -/

/-- C5.  `makeMove` signals an error when the source square is empty, when the
source piece belongs to the inactive side, or when the move matches no legal
move; `resolvePendingCombat` signals an error when no combat is pending.  The
embedding is a pure function returning `Except`: as in the source — which
throws before writing any field and never mutates its input — a rejected call
produces only the error and no successor state, so the input `GameState` is
untouched. -/
theorem c5_rejections (s : GameState) (mv : Move) (env : Env)
    (rolls : ℕ → ℕ) (fuel : ℕ) :
    (s.board mv.fromSq.row mv.fromSq.col = none →
      makeMove s mv = .error "Movimiento inválido: pieza no válida") ∧
    (∀ piece, s.board mv.fromSq.row mv.fromSq.col = some piece →
      piece.owner ≠ s.currentPlayer →
      makeMove s mv = .error "Movimiento inválido: pieza no válida") ∧
    (∀ piece, s.board mv.fromSq.row mv.fromSq.col = some piece →
      piece.owner = s.currentPlayer →
      matchesLegal (getLegalMoves s.board piece mv.fromSq) mv = false →
      makeMove s mv = .error "Movimiento ilegal") ∧
    (s.pendingCombat = none →
      resolvePendingCombat env rolls fuel s =
        some (.error "No hay combate pendiente")) := by
  refine ⟨?_, ?_, ?_, ?_⟩
  · intro hnone
    unfold makeMove
    rw [hnone]
  · intro piece hsrc hown
    unfold makeMove
    rw [hsrc]
    simp [hown]
  · intro piece hsrc hown hleg
    unfold makeMove
    rw [hsrc]
    simp [hown, hleg]
  · intro hpc
    unfold resolvePendingCombat
    rw [hpc]

/-- Witness for C5: all four rejections at concrete inputs on the sample
board (empty source, enemy source, illegal rook move, no pending combat). -/
theorem c5_rejections_witness :
    makeMove sampleRookState ⟨⟨3, 3⟩, ⟨4, 4⟩, false, none⟩ =
        .error "Movimiento inválido: pieza no válida" ∧
    makeMove sampleRookState ⟨⟨0, 5⟩, ⟨1, 5⟩, false, none⟩ =
        .error "Movimiento inválido: pieza no válida" ∧
    makeMove sampleRookState ⟨⟨0, 0⟩, ⟨7, 7⟩, false, none⟩ =
        .error "Movimiento ilegal" ∧
    resolvePendingCombat sampleEnv (fun _ => 1) 1 sampleRookState =
        some (.error "No hay combate pendiente") :=
  ⟨(c5_rejections sampleRookState ⟨⟨3, 3⟩, ⟨4, 4⟩, false, none⟩ sampleEnv
      (fun _ => 1) 1).1 rfl,
   (c5_rejections sampleRookState ⟨⟨0, 5⟩, ⟨1, 5⟩, false, none⟩ sampleEnv
      (fun _ => 1) 1).2.1 sampleTarget rfl (by decide),
   (c5_rejections sampleRookState ⟨⟨0, 0⟩, ⟨7, 7⟩, false, none⟩ sampleEnv
      (fun _ => 1) 1).2.2.1 sampleRook rfl rfl (by decide),
   (c5_rejections sampleRookState ⟨⟨0, 0⟩, ⟨7, 7⟩, false, none⟩ sampleEnv
      (fun _ => 1) 1).2.2.2 rfl⟩

/-! ## C10: `makeMove` never consults the phase -/

/-- C10.  `makeMove` is independent of the `phase` field: replacing the phase
by anything (including `checkmate`, `stalemate` or the combat-pending phase)
yields the identical result, and whenever the source piece belongs to the
active side and the move matches a legal move (with an occupied target if it
is flagged a capture), the move is accepted. -/
theorem c10_makeMove_ignores_phase (s : GameState) (mv : Move) (q : GamePhase) :
    (makeMove { s with phase := q } mv = makeMove s mv) ∧
    (∀ piece, s.board mv.fromSq.row mv.fromSq.col = some piece →
      piece.owner = s.currentPlayer →
      matchesLegal (getLegalMoves s.board piece mv.fromSq) mv = true →
      (mv.isCapture = true → (s.board mv.toSq.row mv.toSq.col).isSome = true) →
      ∃ s2, makeMove s mv = .ok s2) := by
  constructor
  · rfl
  · intro piece hsrc hown hleg hcap
    unfold makeMove
    rw [hsrc]
    simp only [hown, ne_eq, not_true_eq_false, if_false, hleg,
      Bool.not_true, if_neg (by simp : ¬(false = true))]
    by_cases hc : mv.isCapture = true
    · rw [if_pos hc]
      cases hdef : s.board mv.toSq.row mv.toSq.col with
      | none => rw [hdef] at hcap; simp [hc] at hcap
      | some d => exact ⟨_, rfl⟩
    · rw [if_neg hc]
      exact ⟨_, rfl⟩

/-- Witness for C10: the same quiet rook move is accepted from a state whose
phase is `checkmate`, and the call coincides with the `playing`-phase call. -/
theorem c10_makeMove_ignores_phase_witness :
    (makeMove { sampleRookState with phase := .checkmate } sampleRookQuiet =
      makeMove sampleRookState sampleRookQuiet) ∧
    (∃ s2, makeMove sampleRookState sampleRookQuiet = .ok s2) :=
  ⟨(c10_makeMove_ignores_phase sampleRookState sampleRookQuiet .checkmate).1,
   (c10_makeMove_ignores_phase sampleRookState sampleRookQuiet .checkmate).2
     sampleRook rfl rfl (by decide) (by intro h; cases h)⟩

/-! ## C1: losing a King ends the game immediately -/

/-- Source `advanceTurn` installs the given board, and the king-presence check
overrides whatever the check-based detector produced. -/
lemma advanceTurn_fields (s : GameState) (nb : BoardState) (mv : Move) :
    (advanceTurn s nb mv).board = nb ∧
    (boardHasKing nb .white = false →
      (advanceTurn s nb mv).phase = .checkmate ∧
        (advanceTurn s nb mv).winner = some .black) ∧
    (boardHasKing nb .white = true → boardHasKing nb .black = false →
      (advanceTurn s nb mv).phase = .checkmate ∧
        (advanceTurn s nb mv).winner = some .white) := by
  refine ⟨rfl, ?_, ?_⟩
  · intro hw
    unfold advanceTurn
    simp [hw]
  · intro hw hb
    unfold advanceTurn
    simp [hw, hb]

/-- Every successful resolution goes through `advanceTurn`. -/
lemma resolvePendingCombat_thru_advanceTurn (env : Env) (rolls : ℕ → ℕ)
    (fuel : ℕ) (s s2 : GameState)
    (hres : resolvePendingCombat env rolls fuel s = some (.ok s2)) :
    ∃ st nb mv, s2 = advanceTurn st nb mv := by
  simp only [resolvePendingCombat] at hres
  split at hres
  · simp at hres
  · split at hres
    · split at hres
      · simp at hres
      · simp only [Option.some_inj, Except.ok.injEq] at hres
        exact ⟨_, _, _, hres.symm⟩
    · simp at hres

/-- C1.  After a resolved combat, a missing King forces phase `checkmate` with
the opponent as winner, overriding the check-based phase computed first (the
white check runs with priority in the source when both kings are gone). -/
theorem c1_king_loss_overrides (env : Env) (rolls : ℕ → ℕ) (fuel : ℕ)
    (s s2 : GameState)
    (hres : resolvePendingCombat env rolls fuel s = some (.ok s2)) :
    (boardHasKing s2.board .white = false →
      s2.phase = .checkmate ∧ s2.winner = some .black) ∧
    (boardHasKing s2.board .white = true → boardHasKing s2.board .black = false →
      s2.phase = .checkmate ∧ s2.winner = some .white) := by
  obtain ⟨st, nb, mv, rfl⟩ :=
    resolvePendingCombat_thru_advanceTurn env rolls fuel s s2 hres
  exact ⟨(advanceTurn_fields st nb mv).2.1, (advanceTurn_fields st nb mv).2.2⟩

/-- One-round kill: if the attacker's first strike downs the defender, the
loop stops after that strike with no counter-strike logged. -/
lemma combatLoop_kill_first (a d : CombatantInfo) (mA mB : ℚ) (rolls : ℕ → ℕ)
    (fuel : ℕ) (st : CombatLoopState) (hA : 0 < st.aHp) (hD : 0 < st.dHp)
    (hkill : st.dHp - calculateDamage (rolls st.idx) a.attack d.defense mA
      (st.defenderHitCount == 0) ≤ 0) :
    combatLoop a d mA mB rolls (fuel + 1) st =
      some { st with
             dHp := st.dHp - calculateDamage (rolls st.idx) a.attack d.defense mA
               (st.defenderHitCount == 0),
             turn := st.turn + 1,
             defenderHitCount := st.defenderHitCount + 1,
             idx := st.idx + 1,
             log := st.log ++ [⟨st.turn + 1, a.name, rolls st.idx,
               calculateDamage (rolls st.idx) a.attack d.defense mA
                 (st.defenderHitCount == 0),
               max 0 (st.dHp - calculateDamage (rolls st.idx) a.attack d.defense mA
                 (st.defenderHitCount == 0))⟩] } := by
  rw [combatLoop, if_pos ⟨hA, hD⟩, if_pos hkill]

/-- The sample king-capture combat resolves in one round for the attacker. -/
lemma sampleCombat_eval :
    resolveCombat ⟨"mon", [.Normal], 30, 10, 0, 6⟩ ⟨"mon", [.Normal], 1, 0, 0, 6⟩
      (fun _ => 6) 1 = some sampleCombatResult := by
  simp only [resolveCombat, getTypeMultiplier_normal]
  rw [combatLoop_kill_first _ _ _ _ _ 0 _ (by norm_num) (by norm_num)
    (by rw [calculateDamage_mult_one]; norm_num)]
  simp [sampleCombatResult, calculateDamage_mult_one]

/-- Resolving the sample king capture produces `sampleResolvedState`. -/
lemma sampleResolve_eval :
    resolvePendingCombat sampleEnv (fun _ => 6) 1 sampleCombatState =
      some (.ok sampleResolvedState) := by
  simp only [resolvePendingCombat, sampleCombatState, sampleEnv,
    sampleBlackPawn, sampleWhiteKing, sampleCaptureMove]
  rw [sampleCombat_eval]
  rfl

/-- Witness for C1: resolving the black-Pawn capture of the white King yields
phase `checkmate`, winner black (the check detector alone would have reported
stalemate for the king-less side). -/
theorem c1_king_loss_overrides_witness :
    sampleResolvedState.phase = .checkmate ∧
      sampleResolvedState.winner = some .black := by
  have hking : boardHasKing sampleResolvedState.board .white = false := by decide
  exact (c1_king_loss_overrides sampleEnv (fun _ => 6) 1 sampleCombatState
    sampleResolvedState sampleResolve_eval).1 hking


/-! ## C6: pawn evolution on combat wins -/

/-- The evolution loop adds 4 HP per step. -/
lemma evolveSteps_hp (b : PieceStats) : ∀ n : ℕ,
    (evolveSteps b n).hp = b.hp + 4 * n := by
  intro n
  induction n generalizing b with
  | zero => simp [evolveSteps]
  | succ k ih =>
    rw [evolveSteps, ih { b with hp := b.hp + 4, die := upgradeDie b.die }]
    push_cast
    ring

/-- The evolution loop upgrades the die once per step. -/
lemma evolveSteps_die (b : PieceStats) : ∀ n : ℕ,
    (evolveSteps b n).die = upgradeDie^[n] b.die := by
  intro n
  induction n generalizing b with
  | zero => simp [evolveSteps]
  | succ k ih =>
    rw [evolveSteps, ih { b with hp := b.hp + 4, die := upgradeDie b.die },
      Function.iterate_succ_apply]

/-- Stage-`st` pawn HP is `33 + 4·st`, independent of the species modifier. -/
lemma getStats_pawn_hp (st : ℕ) (sm : ℤ) (tgt : StatTarget) :
    (getStatsWithEvolution .Pawn st sm tgt false).hp = 33 + 4 * (st : ℤ) := by
  cases tgt <;>
    simp [getStatsWithEvolution, evolveSteps_hp, BASE_STATS]

/-- Stage-`st` pawn die is the base d6 upgraded `st` times, independent of the
species modifier. -/
lemma getStats_pawn_die (st : ℕ) (sm : ℤ) (tgt : StatTarget) :
    (getStatsWithEvolution .Pawn st sm tgt false).die = upgradeDie^[st] 6 := by
  cases tgt <;>
    simp [getStatsWithEvolution, evolveSteps_die, BASE_STATS]

/-- Reading the square just written. -/
lemma boardUpd_self (b : BoardState) (r c : ℤ) (v : Option GamePiece) :
    boardUpd b r c v r c = v := by
  simp [boardUpd]

/-- Source `advanceTurn` installs the given board verbatim. -/
lemma advanceTurn_board (s : GameState) (nb : BoardState) (mv : Move) :
    (advanceTurn s nb mv).board = nb := rfl

/-- C6.  (a) A winning Pawn (win counter already incremented by the win) whose
counter is at most 2 and stage below 2 advances one stage; its `maxHp` and
`currentHp` become the new stage's maximum `33 + 4·(stage+1)` — independent of
the species modifier — and its die becomes the base d6 upgraded `stage+1`
times, i.e. one `upgradeDie` step beyond a stage-consistent die.  (b) Two wins
from a fresh Pawn (`winUpdate` is exactly the winner update performed by
`resolvePendingCombat`) reach stage 2 with `maxHp = 33 + 8`, full HP 41 and
die 10 (d6 upgraded twice), for every environment, hence every species
modifier.  (c) In `resolvePendingCombat`, the piece placed on the destination
square is exactly the winner updated by this rule. -/
theorem c6_pawn_evolution (env : Env) :
    (∀ p : GamePiece, p.pieceClass = .Pawn →
      p.combatsWon ≤ 2 → p.stage < 2 → p.stage < p.combatsWon →
      (pawnMaybeEvolve env p).stage = p.stage + 1 ∧
      (pawnMaybeEvolve env p).maxHp = 33 + 4 * ((p.stage : ℤ) + 1) ∧
      (pawnMaybeEvolve env p).currentHp = (pawnMaybeEvolve env p).maxHp ∧
      (pawnMaybeEvolve env p).die = upgradeDie^[p.stage + 1] 6 ∧
      (pawnMaybeEvolve env p).combatsWon = p.combatsWon ∧
      (p.die = upgradeDie^[p.stage] 6 →
        (pawnMaybeEvolve env p).die = upgradeDie p.die)) ∧
    (∀ (p : GamePiece) (h1 h2 : ℤ) (pos1 pos2 : Option Pos),
      p.pieceClass = .Pawn → p.stage = 0 → p.combatsWon = 0 →
      (winUpdate env (winUpdate env p h1 pos1) h2 pos2).stage = 2 ∧
      (winUpdate env (winUpdate env p h1 pos1) h2 pos2).maxHp = 33 + 8 ∧
      (winUpdate env (winUpdate env p h1 pos1) h2 pos2).currentHp = 41 ∧
      (winUpdate env (winUpdate env p h1 pos1) h2 pos2).die = 10 ∧
      (winUpdate env (winUpdate env p h1 pos1) h2 pos2).combatsWon = 2) ∧
    (∀ (rolls : ℕ → ℕ) (fuel : ℕ) (s : GameState) (pc : PendingCombat)
        (s2 : GameState),
      s.pendingCombat = some pc →
      resolvePendingCombat env rolls fuel s = some (.ok s2) →
      ∃ atkP defP result,
        env.getPokemonById pc.attacker.pokemonId = some atkP ∧
        env.getPokemonById pc.defender.pokemonId = some defP ∧
        resolveCombat
          ⟨atkP.name, atkP.types, pc.attacker.currentHp, pc.attacker.attack,
           pc.attacker.defense, pc.attacker.die⟩
          ⟨defP.name, defP.types, pc.defender.currentHp, pc.defender.attack,
           pc.defender.defense, pc.defender.die⟩ rolls fuel = some result ∧
        s2.board pc.move.toSq.row pc.move.toSq.col = some
          (if result.winner = .attacker then
            winUpdate env pc.attacker result.attackerHpRemaining
              (some ⟨pc.move.toSq.row, pc.move.toSq.col⟩)
          else
            winUpdate env pc.defender result.defenderHpRemaining
              pc.defender.position)) := by
  have hstep : ∀ p : GamePiece, p.pieceClass = .Pawn →
      p.combatsWon ≤ 2 → p.stage < 2 → p.stage < p.combatsWon →
      (pawnMaybeEvolve env p).pieceClass = .Pawn ∧
      (pawnMaybeEvolve env p).stage = p.stage + 1 ∧
      (pawnMaybeEvolve env p).maxHp = 33 + 4 * ((p.stage : ℤ) + 1) ∧
      (pawnMaybeEvolve env p).currentHp = (pawnMaybeEvolve env p).maxHp ∧
      (pawnMaybeEvolve env p).die = upgradeDie^[p.stage + 1] 6 ∧
      (pawnMaybeEvolve env p).combatsWon = p.combatsWon := by
    intro p hclass hw hs hsw
    unfold pawnMaybeEvolve
    rw [if_pos hclass, if_pos (show (p.combatsWon ≤ 2 ∧ p.stage < 2) ∧
      p.stage < p.combatsWon from ⟨⟨hw, hs⟩, hsw⟩)]
    refine ⟨hclass, rfl, ?_, rfl, getStats_pawn_die _ _ _, rfl⟩
    show (getStatsWithEvolution .Pawn (p.stage + 1)
      (((env.getClassification p.pokemonId).map (fun c => c.speciesMod)).getD 0)
      (((env.getClassification p.pokemonId).map (fun c => c.speciesModTarget)).getD
        .defense) false).hp = 33 + 4 * ((p.stage : ℤ) + 1)
    rw [getStats_pawn_hp]
    push_cast
    ring
  refine ⟨?_, ?_, ?_⟩
  · intro p hclass hw hs hsw
    obtain ⟨_, h2, h3, h4, h5, h6⟩ := hstep p hclass hw hs hsw
    refine ⟨h2, h3, h4, h5, h6, ?_⟩
    intro hdie
    rw [h5, Function.iterate_succ_apply', hdie]
  · intro p h1 h2 pos1 pos2 hclass hs hw
    obtain ⟨q1class, q1stage, _, _, _, q1won⟩ :=
      hstep { p with currentHp := h1,
                     combatsWon := p.combatsWon + 1,
                     position := pos1 }
        hclass (show p.combatsWon + 1 ≤ 2 by omega) (show p.stage < 2 by omega)
        (show p.stage < p.combatsWon + 1 by omega)
    have q1stage1 : (winUpdate env p h1 pos1).stage = 1 := by
      unfold winUpdate
      rw [q1stage]
      show p.stage + 1 = 1
      omega
    have q1won1 : (winUpdate env p h1 pos1).combatsWon = 1 := by
      unfold winUpdate
      rw [q1won]
      show p.combatsWon + 1 = 1
      omega
    obtain ⟨_, q2stage, q2hp, q2cur, q2die, q2won⟩ :=
      hstep { winUpdate env p h1 pos1 with
                currentHp := h2,
                combatsWon := (winUpdate env p h1 pos1).combatsWon + 1,
                position := pos2 }
        q1class (by show (winUpdate env p h1 pos1).combatsWon + 1 ≤ 2; omega)
        (by show (winUpdate env p h1 pos1).stage < 2; omega)
        (by show (winUpdate env p h1 pos1).stage <
              (winUpdate env p h1 pos1).combatsWon + 1; omega)
    have houterStage : ({ winUpdate env p h1 pos1 with
                            currentHp := h2,
                            combatsWon := (winUpdate env p h1 pos1).combatsWon + 1,
                            position := pos2 } : GamePiece).stage = 1 := q1stage1
    have houterWon : ({ winUpdate env p h1 pos1 with
                          currentHp := h2,
                          combatsWon := (winUpdate env p h1 pos1).combatsWon + 1,
                          position := pos2 } : GamePiece).combatsWon = 2 := by
      show (winUpdate env p h1 pos1).combatsWon + 1 = 2
      omega
    refine ⟨?_, ?_, ?_, ?_, ?_⟩
    · show (pawnMaybeEvolve env _).stage = 2
      rw [q2stage, houterStage]
    · show (pawnMaybeEvolve env _).maxHp = 33 + 8
      rw [q2hp, houterStage]
      norm_num
    · show (pawnMaybeEvolve env _).currentHp = 41
      rw [q2cur, q2hp, houterStage]
      norm_num
    · show (pawnMaybeEvolve env _).die = 10
      rw [q2die, houterStage]
      decide
    · show (pawnMaybeEvolve env _).combatsWon = 2
      rw [q2won, houterWon]
  · intro rolls fuel s pc s2 hpc hres
    simp only [resolvePendingCombat, hpc] at hres
    split at hres
    next atkP defP hatk hdef =>
      split at hres
      · simp at hres
      next result hcomb =>
        simp only [Option.some_inj, Except.ok.injEq] at hres
        refine ⟨atkP, defP, result, hatk, hdef, hcomb, ?_⟩
        rw [← hres]
        by_cases hwin : result.winner = .attacker
        · rw [if_pos hwin, if_pos hwin, advanceTurn_board, boardUpd_self]
          rfl
        · rw [if_neg hwin, if_neg hwin, advanceTurn_board, boardUpd_self]
          rfl
    next h =>
      simp at hres

/-- Witness for C6: the sample pawn after one win advances a stage; after two
wins (under the sample environment, hence its species modifier) it has
`maxHp = 33 + 8` and die 10. -/
theorem c6_pawn_evolution_witness :
    (pawnMaybeEvolve sampleEnv { sampleBlackPawn with combatsWon := 1 }).stage =
      { sampleBlackPawn with combatsWon := 1 }.stage + 1 ∧
    (winUpdate sampleEnv (winUpdate sampleEnv sampleBlackPawn 20 none) 25
      none).maxHp = 33 + 8 ∧
    (winUpdate sampleEnv (winUpdate sampleEnv sampleBlackPawn 20 none) 25
      none).die = 10 :=
  ⟨((c6_pawn_evolution sampleEnv).1 { sampleBlackPawn with combatsWon := 1 } rfl
      (by decide) (by decide) (by decide)).1,
   ((c6_pawn_evolution sampleEnv).2.1 sampleBlackPawn 20 25 none none rfl rfl
      rfl).2.1,
   ((c6_pawn_evolution sampleEnv).2.1 sampleBlackPawn 20 25 none none rfl rfl
      rfl).2.2.2.1⟩

/-! ## C7: attacker immunity forces win probability 0 -/

/-- With A-to-B multiplier 0, A's damage is always 0. -/
lemma dmgAtoB_of_zero (cfg : CombatConfig) (h : cfg.typeMultiplierAtoB = 0)
    (g : Bool) (r : ℤ) : dmgAtoB cfg g r = 0 := by
  unfold dmgAtoB
  rw [h]
  exact calculateDamage_mult_zero _ _ _ _

/-- With A-to-B multiplier 0, `pWin` vanishes on any table that is zero off
the base row. -/
lemma pWinAt_of_zero (cfg : CombatConfig) (h0 : cfg.typeMultiplierAtoB = 0)
    (t : Tbl) (ht : ∀ x y, 1 ≤ y → t x y = 0) (hA hB : ℤ) (hB1 : 1 ≤ hB) :
    pWinAt cfg t hA hB = 0 := by
  unfold pWinAt
  refine Finset.sum_eq_zero fun a ha => ?_
  rw [dmgAtoB_of_zero cfg h0, if_neg (by omega)]
  have hinner : ∀ b ∈ Finset.Icc (1 : ℤ) (cfg.dieB : ℤ),
      (1 / (cfg.dieB : ℚ)) *
        (if hA - dmgBtoA cfg false b ≤ 0 then 0
         else if hA - dmgBtoA cfg false b = hA ∧ hB - 0 = hB then 0
         else t (hA - dmgBtoA cfg false b) (hB - 0)) = 0 := by
    intro b hb
    split
    · rw [mul_zero]
    · split
      · rw [mul_zero]
      · rw [ht _ _ (by omega), mul_zero]
  rw [Finset.sum_eq_zero hinner, mul_zero]

/-- With A-to-B multiplier 0, every written cell is 0. -/
lemma cellValue_of_zero (cfg : CombatConfig) (h0 : cfg.typeMultiplierAtoB = 0)
    (t : Tbl) (ht : ∀ x y, 1 ≤ y → t x y = 0) (hA hB : ℤ) (hB1 : 1 ≤ hB) :
    cellValue cfg t hA hB = 0 := by
  unfold cellValue
  split
  · rfl
  · rw [pWinAt_of_zero cfg h0 t ht hA hB hB1, zero_div]

/-- The inner fill preserves the zero-off-base-row invariant. -/
lemma fillRow_of_zero (cfg : CombatConfig) (h0 : cfg.typeMultiplierAtoB = 0)
    (hB : ℤ) (hB1 : 1 ≤ hB) :
    ∀ (n : ℕ) (t : Tbl), (∀ x y, 1 ≤ y → t x y = 0) →
      ∀ x y, 1 ≤ y → fillRow cfg hB t n x y = 0 := by
  intro n
  induction n with
  | zero => intro t ht x y hy; exact ht x y hy
  | succ k ih =>
    intro t ht x y hy
    rw [fillRow]
    unfold writeCell
    split
    next h =>
      exact cellValue_of_zero cfg h0 _ (ih t ht) _ _ (h.2 ▸ hB1)
    next h =>
      exact ih t ht x y hy

/-- The outer fill preserves the zero-off-base-row invariant. -/
lemma fillTable_of_zero (cfg : CombatConfig) (h0 : cfg.typeMultiplierAtoB = 0) :
    ∀ (m : ℕ) (t : Tbl), (∀ x y, 1 ≤ y → t x y = 0) →
      ∀ x y, 1 ≤ y → fillTable cfg t m x y = 0 := by
  intro m
  induction m with
  | zero => intro t ht x y hy; exact ht x y hy
  | succ k ih =>
    intro t ht x y hy
    rw [fillTable]
    exact fillRow_of_zero cfg h0 _ (by omega) cfg.hpA _ (ih t ht) x y hy

/-- With A-to-B multiplier 0, the whole guard-off table is zero off the base
row. -/
lemma dpTable_of_zero (cfg : CombatConfig) (h0 : cfg.typeMultiplierAtoB = 0) :
    ∀ x y, 1 ≤ y → dpTable cfg x y = 0 := by
  refine fillTable_of_zero cfg h0 cfg.hpB (initTable cfg.hpA) ?_
  intro x y hy
  unfold initTable
  rw [if_neg (by omega)]

/-- C7.  Positive HP on both sides, an attacker-to-defender multiplier of 0
and a defender able to deal positive damage with positive probability (some
roll of its die deals positive guard-off damage) force
`calculateWinProbability` to return exactly 0: the attacker can never bring
the defender's HP to 0. -/
theorem c7_attacker_immunity (cfg : CombatConfig)
    (hA : 1 ≤ cfg.hpA) (hB : 1 ≤ cfg.hpB)
    (hmult : cfg.typeMultiplierAtoB = 0)
    (hret : ∃ r : ℤ, 1 ≤ r ∧ r ≤ (cfg.dieB : ℤ) ∧ 0 < dmgBtoA cfg false r) :
    calculateWinProbability cfg = 0 := by
  have hdp := dpTable_of_zero cfg hmult
  unfold calculateWinProbability
  refine Finset.sum_eq_zero fun a ha => ?_
  rw [dmgAtoB_of_zero cfg hmult, if_neg (by omega)]
  have hinner : ∀ b ∈ Finset.Icc (1 : ℤ) (cfg.dieB : ℤ),
      (1 / (cfg.dieB : ℚ)) *
        (if (cfg.hpA : ℤ) - dmgBtoA cfg true b ≤ 0 then 0
         else dpTable cfg ((cfg.hpA : ℤ) - dmgBtoA cfg true b) ((cfg.hpB : ℤ) - 0)) = 0 := by
    intro b hb
    split
    · rw [mul_zero]
    · rw [hdp _ _ (by omega), mul_zero]
  rw [Finset.sum_eq_zero hinner, mul_zero]

/-- Witness for C7: 1-HP sides, d1 dice, immune attacker, retaliating
defender. -/
theorem c7_attacker_immunity_witness :
    calculateWinProbability ⟨1, 1, 1, 0, 1, 1, 5, 0, 0, 1⟩ = 0 :=
  c7_attacker_immunity ⟨1, 1, 1, 0, 1, 1, 5, 0, 0, 1⟩ (by norm_num) (by norm_num)
    rfl ⟨1, by norm_num, by norm_num, by
      show (0 : ℤ) < calculateDamage 1 5 0 1 false
      rw [calculateDamage_mult_one]
      norm_num⟩

/-! ## C2: the guard-off DP table satisfies the claimed recurrence

Every cell is written exactly once, in column order `hB = 1..hpB` and row
order `hA = 1..hpA` inside a column.  With non-negative multipliers all
damages are non-negative, so the loop body only reads cells that are already
final; hence the finished table is a fixpoint of the cell recurrence. -/

/-- The inner loop leaves every cell outside `[1,n] × {hB}` unchanged. -/
lemma fillRow_untouched (cfg : CombatConfig) (hB : ℤ) :
    ∀ (n : ℕ) (t : Tbl) (x y : ℤ),
      ¬(1 ≤ x ∧ x ≤ (n : ℤ) ∧ y = hB) → fillRow cfg hB t n x y = t x y := by
  intro n
  induction n with
  | zero => intro t x y _; rfl
  | succ k ih =>
    intro t x y h
    rw [fillRow]
    unfold writeCell
    rw [if_neg (by push_cast at h ⊢; omega)]
    exact ih t x y (by push_cast at h ⊢; omega)

/-- The outer loop leaves every cell outside `[1,hpA] × [1,m]` unchanged. -/
lemma fillTable_untouched (cfg : CombatConfig) :
    ∀ (m : ℕ) (t : Tbl) (x y : ℤ),
      ¬(1 ≤ x ∧ x ≤ (cfg.hpA : ℤ) ∧ 1 ≤ y ∧ y ≤ (m : ℤ)) →
      fillTable cfg t m x y = t x y := by
  intro m
  induction m with
  | zero => intro t x y _; rfl
  | succ k ih =>
    intro t x y h
    rw [fillTable]
    rw [fillRow_untouched cfg _ _ _ x y (by push_cast at h ⊢; omega)]
    exact ih t x y (by push_cast at h ⊢; omega)

/-- Inside the inner loop, cell `(k, hB)` (for `1 ≤ k ≤ n`) holds the value
computed from the table state just before it was written. -/
lemma fillRow_written (cfg : CombatConfig) (hB : ℤ) :
    ∀ (n : ℕ) (t : Tbl) (k : ℕ), 1 ≤ k → k ≤ n →
      fillRow cfg hB t n (k : ℤ) hB =
        cellValue cfg (fillRow cfg hB t (k - 1)) (k : ℤ) hB := by
  intro n
  induction n with
  | zero => intro t k hk1 hk0; omega
  | succ m ih =>
    intro t k hk1 hkn
    by_cases hk : k = m + 1
    · subst hk
      rw [fillRow]
      unfold writeCell
      rw [if_pos (by push_cast; omega)]
      norm_num
    · have hkm : k ≤ m := by omega
      rw [fillRow]
      unfold writeCell
      rw [if_neg (by push_cast; omega)]
      exact ih t k hk1 hkm

/-- Reading a finished table at column `j ≤ m` gives the value after the
column-`j` inner loop ran on the table of the first `j - 1` columns. -/
lemma fillTable_column (cfg : CombatConfig) :
    ∀ (m : ℕ) (t : Tbl) (j : ℕ), 1 ≤ j → j ≤ m → ∀ x : ℤ,
      fillTable cfg t m x (j : ℤ) =
        fillRow cfg (j : ℤ) (fillTable cfg t (j - 1)) cfg.hpA x (j : ℤ) := by
  intro m
  induction m with
  | zero => intro t j hj1 hj0; omega
  | succ k ih =>
    intro t j hj1 hjm x
    by_cases hj : j = k + 1
    · subst hj
      rw [fillTable]
      norm_num
    · have hjk : j ≤ k := by omega
      rw [fillTable]
      rw [fillRow_untouched cfg _ _ _ x (j : ℤ) (by push_cast; omega)]
      exact ih t j hj1 hjk x

/-- The table state just before cell `(hA, hB)` of the guard-off DP was
written: columns `1..hB-1` complete, column `hB` filled up to row `hA - 1`. -/
lemma dpTable_written (cfg : CombatConfig) (hA hB : ℕ)
    (h1 : 1 ≤ hA) (h2 : hA ≤ cfg.hpA) (h3 : 1 ≤ hB) (h4 : hB ≤ cfg.hpB) :
    dpTable cfg (hA : ℤ) (hB : ℤ) =
      cellValue cfg
        (fillRow cfg (hB : ℤ) (fillTable cfg (initTable cfg.hpA) (hB - 1))
          (hA - 1))
        (hA : ℤ) (hB : ℤ) := by
  unfold dpTable
  rw [fillTable_column cfg cfg.hpB (initTable cfg.hpA) hB h3 h4 (hA : ℤ)]
  exact fillRow_written cfg (hB : ℤ) cfg.hpA _ hA h1 h2

/-- Any two finished prefixes agree on a column both contain. -/
lemma fillTable_agree (cfg : CombatConfig) (t : Tbl) (m m' j : ℕ)
    (hj1 : 1 ≤ j) (hjm : j ≤ m) (hjm' : j ≤ m') (x : ℤ) :
    fillTable cfg t m x (j : ℤ) = fillTable cfg t m' x (j : ℤ) := by
  rw [fillTable_column cfg m t j hj1 hjm x,
    fillTable_column cfg m' t j hj1 hjm' x]

/-- The pre-write table agrees with the finished table on every cell the
loop body of `(hA, hB)` may read: earlier columns, and earlier rows of the
same column. -/
lemma dpTable_agree_before (cfg : CombatConfig) (hA hB : ℕ)
    (h1 : 1 ≤ hA) (h2 : hA ≤ cfg.hpA) (h3 : 1 ≤ hB) (h4 : hB ≤ cfg.hpB)
    (x y : ℤ) (hx1 : 1 ≤ x) (hx2 : x ≤ (hA : ℤ)) (hy1 : 1 ≤ y)
    (hreg : y < (hB : ℤ) ∨ (y = (hB : ℤ) ∧ x < (hA : ℤ))) :
    fillRow cfg (hB : ℤ) (fillTable cfg (initTable cfg.hpA) (hB - 1)) (hA - 1)
        x y = dpTable cfg x y := by
  have hxA : x ≤ (cfg.hpA : ℤ) := le_trans hx2 (by exact_mod_cast h2)
  rcases hreg with hlt | ⟨rfl, hxlt⟩
  · -- earlier column: untouched by the column-`hB` inner loop
    rw [fillRow_untouched cfg _ _ _ x y (by omega)]
    unfold dpTable
    obtain ⟨j, rfl⟩ : ∃ j : ℕ, y = (j : ℤ) := ⟨y.toNat, by omega⟩
    exact fillTable_agree cfg (initTable cfg.hpA) (hB - 1) cfg.hpB j
      (by omega) (by omega) (by omega) x
  · -- same column, earlier row
    obtain ⟨k, rfl⟩ : ∃ k : ℕ, x = (k : ℤ) := ⟨x.toNat, by omega⟩
    rw [fillRow_written cfg (hB : ℤ) (hA - 1) _ k (by omega) (by omega)]
    rw [dpTable_written cfg k hB (by omega) (by omega) h3 h4]

/-- With non-negative multipliers, `pWin` only depends on the table values in
the read region, so tables agreeing there give the same `pWin`. -/
lemma pWinAt_congr_region (cfg : CombatConfig)
    (hmA : 0 ≤ cfg.typeMultiplierAtoB) (hmB : 0 ≤ cfg.typeMultiplierBtoA)
    (t t2 : Tbl) (hA hB : ℤ)
    (hagree : ∀ x y : ℤ, 1 ≤ x → x ≤ hA → 1 ≤ y →
      (y < hB ∨ (y = hB ∧ x < hA)) → t x y = t2 x y) :
    pWinAt cfg t hA hB = pWinAt cfg t2 hA hB := by
  unfold pWinAt
  refine Finset.sum_congr rfl fun a ha => ?_
  have hdA : 0 ≤ dmgAtoB cfg false a := calculateDamage_nonneg _ _ _ _ _ hmA
  by_cases hB0 : hB - dmgAtoB cfg false a ≤ 0
  · rw [if_pos hB0, if_pos hB0]
  · rw [if_neg hB0, if_neg hB0]
    congr 1
    refine Finset.sum_congr rfl fun b hb => ?_
    have hdB : 0 ≤ dmgBtoA cfg false b := calculateDamage_nonneg _ _ _ _ _ hmB
    by_cases hA0 : hA - dmgBtoA cfg false b ≤ 0
    · rw [if_pos hA0, if_pos hA0]
    · rw [if_neg hA0, if_neg hA0]
      by_cases hloop : hA - dmgBtoA cfg false b = hA ∧ hB - dmgAtoB cfg false a = hB
      · rw [if_pos hloop, if_pos hloop]
      · rw [if_neg hloop, if_neg hloop]
        congr 1
        exact hagree _ _ (by omega) (by omega) (by omega) (by omega)

/-- C2.  The guard-off DP table of `calculateWinProbability` satisfies:
base row `P[hA][0] = 1` for `1 ≤ hA ≤ hpA`; base column `P[0][hB] = 0` for
every `hB`; and every interior cell `(hA, hB)` equals `0` when `pLoop = 1`
(the unwinnable deadlock) and `pWin / (1 - pLoop)` when `pLoop < 1`, where
`pLoop` is the weight of the self-referencing transitions and `pWin` (the
claim's `pOther`) is the weight of transitions into resolved winning
continuations, read off the finished table itself. -/
theorem c2_dpTable_recurrence (cfg : CombatConfig)
    (hmA : 0 ≤ cfg.typeMultiplierAtoB) (hmB : 0 ≤ cfg.typeMultiplierBtoA) :
    (∀ hA : ℕ, 1 ≤ hA → hA ≤ cfg.hpA → dpTable cfg (hA : ℤ) 0 = 1) ∧
    (∀ hB : ℤ, dpTable cfg 0 hB = 0) ∧
    (∀ hA hB : ℕ, 1 ≤ hA → hA ≤ cfg.hpA → 1 ≤ hB → hB ≤ cfg.hpB →
      (pLoopAt cfg (hA : ℤ) (hB : ℤ) = 1 → dpTable cfg (hA : ℤ) (hB : ℤ) = 0) ∧
      (pLoopAt cfg (hA : ℤ) (hB : ℤ) < 1 →
        dpTable cfg (hA : ℤ) (hB : ℤ) =
          pWinAt cfg (dpTable cfg) (hA : ℤ) (hB : ℤ) /
            (1 - pLoopAt cfg (hA : ℤ) (hB : ℤ)))) := by
  refine ⟨?_, ?_, ?_⟩
  · intro hA h1 h2
    unfold dpTable
    rw [fillTable_untouched cfg cfg.hpB (initTable cfg.hpA) (hA : ℤ) 0
      (by omega)]
    unfold initTable
    rw [if_pos (show (0 : ℤ) = 0 ∧ 1 ≤ (hA : ℤ) ∧ (hA : ℤ) ≤ (cfg.hpA : ℤ)
      from ⟨rfl, by omega, by omega⟩)]
  · intro hB
    unfold dpTable
    rw [fillTable_untouched cfg cfg.hpB (initTable cfg.hpA) 0 hB (by omega)]
    unfold initTable
    rw [if_neg (by omega)]
  · intro hA hB h1 h2 h3 h4
    have hwritten := dpTable_written cfg hA hB h1 h2 h3 h4
    have hagree := fun x y hx1 hx2 hy1 hreg =>
      dpTable_agree_before cfg hA hB h1 h2 h3 h4 x y hx1 hx2 hy1 hreg
    have hpw : pWinAt cfg
        (fillRow cfg (hB : ℤ) (fillTable cfg (initTable cfg.hpA) (hB - 1))
          (hA - 1)) (hA : ℤ) (hB : ℤ) =
        pWinAt cfg (dpTable cfg) (hA : ℤ) (hB : ℤ) :=
      pWinAt_congr_region cfg hmA hmB _ _ _ _ hagree
    constructor
    · intro hone
      rw [hwritten]
      unfold cellValue
      rw [if_pos (le_of_eq hone.symm)]
    · intro hlt
      rw [hwritten]
      unfold cellValue
      rw [if_neg (not_le.mpr hlt)]
      rw [hpw]

/-- Witness for C2 at a tiny configuration (2 HP each, d2 dice, neutral
multipliers). -/
theorem c2_dpTable_recurrence_witness :
    (0 : ℚ) ≤ 1 ∧
      dpTable ⟨2, 2, 2, 0, 2, 2, 2, 0, 1, 1⟩ ((1 : ℕ) : ℤ) 0 = 1 :=
  ⟨by norm_num,
   (c2_dpTable_recurrence ⟨2, 2, 2, 0, 2, 2, 2, 0, 1, 1⟩ (by norm_num)
      (by norm_num)).1 1 (by norm_num) (by norm_num)⟩

/-! ## C9: board integrity of all reachable states

The grid representation makes "at most one piece per square" intrinsic (each
square is a single `Option GamePiece` slot, as in the source's 2-D array);
the two non-trivial integrity facts are that no piece id sits on two distinct
squares and that each stored `position` names its own square.  They are
proved as an inductive invariant over all reachable states, strengthened with
board well-formedness and the pending-combat snapshot consistency. -/

/-- Source `isEmpty` implies in-bounds. -/
lemma isEmpty_inBounds (b : BoardState) (r c : ℤ) (h : isEmpty b r c = true) :
    inBounds r c = true := ((Bool.and_eq_true _ _).mp h).1

/-- Ray moves target in-bounds squares. -/
lemma slideRay_to_inBounds (board : BoardState) (piece : GamePiece) (pos : Pos)
    (dr dc : ℤ) : ∀ (n : ℕ) (r c : ℤ) (m : Move),
      m ∈ slideRay board piece pos dr dc n r c →
      inBounds m.toSq.row m.toSq.col = true := by
  intro n
  induction n with
  | zero => intro r c m h; simp [slideRay] at h
  | succ k ih =>
    intro r c m h
    rw [slideRay] at h
    by_cases hb : inBounds r c = true
    · rw [if_pos hb] at h
      split at h
      · rcases List.mem_cons.mp h with rfl | h2
        · exact hb
        · exact ih _ _ _ h2
      · split at h
        · rcases List.mem_singleton.mp h with rfl
          exact hb
        · simp at h
    · rw [if_neg hb] at h
      simp at h

/-- Pawn moves target in-bounds squares. -/
lemma generatePawnMoves_to_inBounds (board : BoardState) (piece : GamePiece)
    (pos : Pos) (m : Move) (h : m ∈ generatePawnMoves board piece pos) :
    inBounds m.toSq.row m.toSq.col = true := by
  simp only [generatePawnMoves] at h
  generalize (if piece.owner = Owner.white then (-1 : ℤ) else 1) = dir at h
  generalize (if piece.owner = Owner.white then (6 : ℤ) else 1) = startRow at h
  generalize (if piece.owner = Owner.white then (0 : ℤ) else 7) = promoRow at h
  rcases List.mem_append.mp h with h1 | h2
  · split at h1
    next hc =>
      rcases List.mem_append.mp h1 with h3 | h4
      · split at h3
        · rcases List.mem_map.mp h3 with ⟨promo, _, rfl⟩
          exact ((Bool.and_eq_true _ _).mp hc).1
        · rcases List.mem_singleton.mp h3 with rfl
          exact ((Bool.and_eq_true _ _).mp hc).1
      · split at h4
        next hd =>
          rcases List.mem_singleton.mp h4 with rfl
          exact isEmpty_inBounds _ _ _ ((Bool.and_eq_true _ _).mp hd).2
        next => simp at h4
    next => simp at h1
  · rcases List.mem_flatMap.mp h2 with ⟨dc, hdc, h3⟩
    split at h3
    next hc =>
      split at h3
      · rcases List.mem_map.mp h3 with ⟨promo, _, rfl⟩
        exact ((Bool.and_eq_true _ _).mp hc).1
      · rcases List.mem_singleton.mp h3 with rfl
        exact ((Bool.and_eq_true _ _).mp hc).1
    next => simp at h3

/-- Knight moves target in-bounds squares. -/
lemma generateKnightMoves_to_inBounds (board : BoardState) (piece : GamePiece)
    (pos : Pos) (m : Move) (h : m ∈ generateKnightMoves board piece pos) :
    inBounds m.toSq.row m.toSq.col = true := by
  simp only [generateKnightMoves] at h
  rcases List.mem_flatMap.mp h with ⟨d, hd, h2⟩
  split at h2
  next hb =>
    split at h2
    · rcases List.mem_singleton.mp h2 with rfl
      exact hb
    · split at h2
      · rcases List.mem_singleton.mp h2 with rfl
        exact hb
      · simp at h2
  next => simp at h2

/-- King moves target in-bounds squares. -/
lemma generateKingMoves_to_inBounds (board : BoardState) (piece : GamePiece)
    (pos : Pos) (m : Move) (h : m ∈ generateKingMoves board piece pos) :
    inBounds m.toSq.row m.toSq.col = true := by
  simp only [generateKingMoves] at h
  rcases List.mem_flatMap.mp h with ⟨d, hd, h2⟩
  split at h2
  next hb =>
    split at h2
    · rcases List.mem_singleton.mp h2 with rfl
      exact hb
    · split at h2
      · rcases List.mem_singleton.mp h2 with rfl
        exact hb
      · simp at h2
  next => simp at h2

/-- Every pseudo-legal move targets an in-bounds square. -/
lemma getPseudoLegalMoves_to_inBounds (board : BoardState) (piece : GamePiece)
    (pos : Pos) (m : Move) (h : m ∈ getPseudoLegalMoves board piece pos) :
    inBounds m.toSq.row m.toSq.col = true := by
  unfold getPseudoLegalMoves at h
  cases hcl : piece.pieceClass <;> rw [hcl] at h
  case Pawn => exact generatePawnMoves_to_inBounds board piece pos m h
  case Knight => exact generateKnightMoves_to_inBounds board piece pos m h
  case King => exact generateKingMoves_to_inBounds board piece pos m h
  all_goals {
    rcases List.mem_flatMap.mp h with ⟨d, hd, h2⟩
    exact slideRay_to_inBounds board piece pos d.1 d.2 8 _ _ m h2
  }

/-- A move that matches some legal move targets an in-bounds square. -/
lemma matchesLegal_to_inBounds (b : BoardState) (piece : GamePiece) (mv : Move)
    (h : matchesLegal (getLegalMoves b piece mv.fromSq) mv = true) :
    inBounds mv.toSq.row mv.toSq.col = true := by
  unfold matchesLegal at h
  rcases List.any_eq_true.mp h with ⟨m, hm, hmv⟩
  have hm2 := (List.mem_filter.mp hm).1
  have hb := getPseudoLegalMoves_to_inBounds b piece mv.fromSq m hm2
  have h3 : m.toSq.row = mv.toSq.row ∧ m.toSq.col = mv.toSq.col := by
    constructor <;> [exact of_decide_eq_true (((Bool.and_eq_true _ _).mp)
      ((Bool.and_eq_true _ _).mp hmv).1).1;
      exact of_decide_eq_true (((Bool.and_eq_true _ _).mp)
      ((Bool.and_eq_true _ _).mp hmv).1).2]
  rw [← h3.1, ← h3.2]
  exact hb

/-- Pointwise reading of remove-then-place (destination written second). -/
lemma boardUpd_move_read (b : BoardState) (fr fc tr tc : ℤ)
    (v : Option GamePiece) (x y : ℤ) :
    boardUpd (boardUpd b fr fc none) tr tc v x y =
      if x = tr ∧ y = tc then v
      else if x = fr ∧ y = fc then none
      else b x y := rfl

/-- Removing the occupant of `(fr,fc)` and placing `pNew` on `(tr,tc)`
preserves the three board invariants, provided `pNew`'s id previously occurred
only on one of those two squares, its stored position is the destination, and
the destination is in bounds. -/
lemma boardUpd_move_inv (b : BoardState) (fr fc tr tc : ℤ) (pNew : GamePiece)
    (hpc : posConsistent b) (hnd : noDoubleOccupancy b)
    (hwf : boardWellFormed b)
    (hid : ∀ r c q, b r c = some q → q.id = pNew.id →
      (r = fr ∧ c = fc) ∨ (r = tr ∧ c = tc))
    (hpos : pNew.position = some ⟨tr, tc⟩)
    (hbounds : inBounds tr tc = true) :
    posConsistent (boardUpd (boardUpd b fr fc none) tr tc (some pNew)) ∧
    noDoubleOccupancy (boardUpd (boardUpd b fr fc none) tr tc (some pNew)) ∧
    boardWellFormed (boardUpd (boardUpd b fr fc none) tr tc (some pNew)) := by
  refine ⟨?_, ?_, ?_⟩
  · intro r c p hp
    rw [boardUpd_move_read] at hp
    split at hp
    next hrc =>
      obtain ⟨rfl, rfl⟩ := hrc
      cases hp
      exact hpos
    next hrc =>
      split at hp
      · exact absurd hp (by simp)
      next hfc =>
        exact hpc r c p hp
  · intro r c r2 c2 p q h1 h2 hpq
    rw [boardUpd_move_read] at h1 h2
    split at h1
    next hrc1 =>
      cases h1
      split at h2
      next hrc2 =>
        exact ⟨hrc1.1.trans hrc2.1.symm, hrc1.2.trans hrc2.2.symm⟩
      next hrc2 =>
        split at h2
        · exact absurd h2 (by simp)
        next hfc2 =>
          rcases hid r2 c2 q h2 hpq.symm with hq | hq
          · exact absurd hq hfc2
          · exact absurd hq hrc2
    next hrc1 =>
      split at h1
      · exact absurd h1 (by simp)
      next hfc1 =>
        split at h2
        next hrc2 =>
          cases h2
          rcases hid r c p h1 hpq with hq | hq
          · exact absurd hq hfc1
          · exact absurd hq hrc1
        next hrc2 =>
          split at h2
          · exact absurd h2 (by simp)
          next hfc2 =>
            exact hnd r c r2 c2 p q h1 h2 hpq
  · intro r c hsome
    rw [boardUpd_move_read] at hsome
    split at hsome
    next hrc =>
      obtain ⟨rfl, rfl⟩ := hrc
      exact hbounds
    next =>
      split at hsome
      · simp at hsome
      · exact hwf r c hsome

/-- The evolution block never touches the id or the position. -/
lemma pawnMaybeEvolve_id_pos (env : Env) (p : GamePiece) :
    (pawnMaybeEvolve env p).id = p.id ∧
      (pawnMaybeEvolve env p).position = p.position := by
  unfold pawnMaybeEvolve
  split
  · split
    · exact ⟨rfl, rfl⟩
    · exact ⟨rfl, rfl⟩
  · exact ⟨rfl, rfl⟩

/-- Source `applyMove` preserves the three board invariants when the destination is
in bounds. -/
lemma applyMove_inv (b : BoardState) (mv : Move)
    (hpc : posConsistent b) (hnd : noDoubleOccupancy b)
    (hwf : boardWellFormed b)
    (hbounds : inBounds mv.toSq.row mv.toSq.col = true) :
    posConsistent (applyMove b mv) ∧ noDoubleOccupancy (applyMove b mv) ∧
      boardWellFormed (applyMove b mv) := by
  unfold applyMove
  cases hsrc : b mv.fromSq.row mv.fromSq.col with
  | none => exact ⟨hpc, hnd, hwf⟩
  | some piece =>
    exact boardUpd_move_inv b mv.fromSq.row mv.fromSq.col mv.toSq.row
      mv.toSq.col _ hpc hnd hwf
      (fun r c q hq hqid =>
        Or.inl (hnd r c mv.fromSq.row mv.fromSq.col q piece hq hsrc hqid))
      rfl hbounds

/-- Source `advanceTurn` produces an invariant state from an invariant board (the
pending combat is cleared). -/
lemma advanceTurn_inv (s : GameState) (nb : BoardState) (mv : Move)
    (h1 : posConsistent nb) (h2 : noDoubleOccupancy nb)
    (h3 : boardWellFormed nb) : StateInv (advanceTurn s nb mv) := by
  refine ⟨h1, h2, h3, ?_⟩
  intro pc hpc
  exact Option.noConfusion hpc

/-- An accepted `makeMove` preserves the state invariant: a capture leaves the
board alone and snapshots the live occupants, a quiet move goes through
`applyMove` to an in-bounds destination. -/
lemma makeMove_inv (s : GameState) (mv : Move) (s2 : GameState)
    (hinv : StateInv s) (h : makeMove s mv = .ok s2) : StateInv s2 := by
  obtain ⟨hpc, hnd, hwf, hpend⟩ := hinv
  unfold makeMove at h
  split at h
  · simp at h
  next piece hsrc =>
    split at h
    · simp at h
    split at h
    · simp at h
    next hleg =>
      have hleg2 : matchesLegal (getLegalMoves s.board piece mv.fromSq) mv = true := by
        simpa using hleg
      split at h
      · split at h
        · simp at h
        next defender hdef =>
          simp only [Except.ok.injEq] at h
          subst h
          refine ⟨hpc, hnd, hwf, ?_⟩
          intro pc2 hpc2
          simp only [Option.some_inj] at hpc2
          subst hpc2
          exact ⟨hsrc, hdef⟩
      · simp only [Except.ok.injEq] at h
        subst h
        obtain ⟨h1, h2, h3⟩ := applyMove_inv s.board mv hpc hnd hwf
          (matchesLegal_to_inBounds s.board piece mv hleg2)
        exact advanceTurn_inv s _ mv h1 h2 h3

/-- A successful `resolvePendingCombat` preserves the state invariant: the
loser's square is blanked and the updated winner (id and stored position
intact or re-pointed at the destination) is placed on the destination, which
is in bounds because the defender sat there. -/
lemma resolvePendingCombat_inv (env : Env) (rolls : ℕ → ℕ) (fuel : ℕ)
    (s s2 : GameState) (hinv : StateInv s)
    (h : resolvePendingCombat env rolls fuel s = some (.ok s2)) :
    StateInv s2 := by
  obtain ⟨hpc, hnd, hwf, hpend⟩ := hinv
  simp only [resolvePendingCombat] at h
  split at h
  · simp at h
  next pc hpcs =>
    split at h
    next atkP defP hatk hdef =>
      split at h
      · simp at h
      next result hcomb =>
        simp only [Option.some_inj, Except.ok.injEq] at h
        subst h
        obtain ⟨hfrom, hto⟩ := hpend pc hpcs
        have htoBounds : inBounds pc.move.toSq.row pc.move.toSq.col = true :=
          hwf pc.move.toSq.row pc.move.toSq.col (by rw [hto]; rfl)
        by_cases hwin : result.winner = .attacker
        · rw [if_pos hwin]
          have hidpos := pawnMaybeEvolve_id_pos env
            { pc.attacker with
                currentHp := result.attackerHpRemaining,
                combatsWon := pc.attacker.combatsWon + 1,
                position := some ⟨pc.move.toSq.row, pc.move.toSq.col⟩ }
          obtain ⟨hb1, hb2, hb3⟩ := boardUpd_move_inv s.board
            pc.move.fromSq.row pc.move.fromSq.col pc.move.toSq.row
            pc.move.toSq.col _ hpc hnd hwf
            (fun r c q hq hqid => Or.inl
              (hnd r c pc.move.fromSq.row pc.move.fromSq.col q pc.attacker hq
                hfrom (by rw [hqid, hidpos.1])))
            (by rw [hidpos.2])
            htoBounds
          exact advanceTurn_inv _ _ _ hb1 hb2 hb3
        · rw [if_neg hwin]
          have hdefpos : pc.defender.position =
              some ⟨pc.move.toSq.row, pc.move.toSq.col⟩ :=
            hpc pc.move.toSq.row pc.move.toSq.col pc.defender hto
          have hidpos := pawnMaybeEvolve_id_pos env
            { pc.defender with
                currentHp := result.defenderHpRemaining,
                combatsWon := pc.defender.combatsWon + 1 }
          obtain ⟨hb1, hb2, hb3⟩ := boardUpd_move_inv s.board
            pc.move.fromSq.row pc.move.fromSq.col pc.move.toSq.row
            pc.move.toSq.col _ hpc hnd hwf
            (fun r c q hq hqid => Or.inr
              (hnd r c pc.move.toSq.row pc.move.toSq.col q pc.defender hq
                hto (by rw [hqid, hidpos.1])))
            (by rw [hidpos.2]; exact hdefpos)
            htoBounds
          exact advanceTurn_inv _ _ _ hb1 hb2 hb3
    · simp at h

/-- Source `createGamePiece` hands out the requested id and position. -/
lemma createGamePiece_fields (env : Env) (slot : TeamSlot) (owner : Owner)
    (position : Pos) (pieceId : ℕ) (piece : GamePiece)
    (h : createGamePiece env slot owner position pieceId = .ok piece) :
    piece.id = pieceId ∧ piece.position = some position := by
  unfold createGamePiece at h
  split at h
  · simp at h
  · simp only [Except.ok.injEq] at h
    subst h
    exact ⟨rfl, rfl⟩

/-- Placing a freshly created piece (id strictly above every id on the board)
on an in-bounds empty-or-not square preserves the invariants and the id
bound. -/
lemma boardUpd_place_inv (b : BoardState) (r c : ℤ) (p : GamePiece) (ctr : ℕ)
    (h1 : posConsistent b) (h2 : noDoubleOccupancy b) (h3 : boardWellFormed b)
    (h4 : ∀ x y q, b x y = some q → q.id ≤ ctr)
    (hid : p.id = ctr + 1) (hpos : p.position = some ⟨r, c⟩)
    (hbounds : inBounds r c = true) :
    posConsistent (boardUpd b r c (some p)) ∧
    noDoubleOccupancy (boardUpd b r c (some p)) ∧
    boardWellFormed (boardUpd b r c (some p)) ∧
    (∀ x y q, boardUpd b r c (some p) x y = some q → q.id ≤ ctr + 1) := by
  refine ⟨?_, ?_, ?_, ?_⟩
  · intro x y q hq
    unfold boardUpd at hq
    split at hq
    next hxy =>
      obtain ⟨rfl, rfl⟩ := hxy
      cases hq
      exact hpos
    next => exact h1 x y q hq
  · intro x y x2 y2 q q2 hq hq2 hqid
    unfold boardUpd at hq hq2
    split at hq
    next hxy =>
      cases hq
      split at hq2
      next hxy2 =>
        exact ⟨hxy.1.trans hxy2.1.symm, hxy.2.trans hxy2.2.symm⟩
      next hxy2 =>
        have := h4 x2 y2 q2 hq2
        omega
    next hxy =>
      split at hq2
      next hxy2 =>
        cases hq2
        have := h4 x y q hq
        omega
      next hxy2 => exact h2 x y x2 y2 q q2 hq hq2 hqid
  · intro x y hx
    unfold boardUpd at hx
    split at hx
    next hxy =>
      obtain ⟨rfl, rfl⟩ := hxy
      exact hbounds
    next => exact h3 x y hx
  · intro x y q hq
    unfold boardUpd at hq
    split at hq
    next =>
      cases hq
      omega
    next =>
      have := h4 x y q hq
      omega

/-- A successful placement pass preserves the invariants and the id bound;
the written columns stay below 8 thanks to the `col < 8` guard (pawn rows) or
the slot-count bound (back rows). -/
lemma placeSlots_inv (env : Env) (owner : Owner) (row : ℤ)
    (limitCols : Bool) (hrow : 0 ≤ row ∧ row < 8) :
    ∀ (slots : List TeamSlot) (col : ℕ) (board : BoardState) (ctr : ℕ)
      (b2 : BoardState) (c2 : ℕ),
      placeSlots env owner row limitCols slots col board ctr = .ok (b2, c2) →
      (limitCols = true ∨ (col : ℤ) + slots.length ≤ 8) →
      posConsistent board → noDoubleOccupancy board → boardWellFormed board →
      (∀ r c q, board r c = some q → q.id ≤ ctr) →
      posConsistent b2 ∧ noDoubleOccupancy b2 ∧ boardWellFormed b2 ∧
        (∀ r c q, b2 r c = some q → q.id ≤ c2) := by
  intro slots
  induction slots with
  | nil =>
    intro col board ctr b2 c2 h hcol h1 h2 h3 h4
    rw [placeSlots] at h
    simp only [Except.ok.injEq, Prod.mk.injEq] at h
    obtain ⟨rfl, rfl⟩ := h
    exact ⟨h1, h2, h3, h4⟩
  | cons slot rest ih =>
    intro col board ctr b2 c2 h hcol h1 h2 h3 h4
    rw [placeSlots] at h
    split at h
    next hskip =>
      refine ih (col + 1) board ctr b2 c2 h ?_ h1 h2 h3 h4
      exact Or.inl ((Bool.and_eq_true _ _).mp hskip).1
    next hskip =>
      split at h
      · simp at h
      next piece hpiece =>
        obtain ⟨hpid, hppos⟩ := createGamePiece_fields env slot owner
          ⟨row, (col : ℤ)⟩ (ctr + 1) piece hpiece
        have hcol8 : (col : ℤ) < 8 := by
          rcases hcol with hlim | hlen
          · rw [hlim] at hskip
            simp only [Bool.true_and] at hskip
            have : ¬ 8 ≤ col := by simpa using hskip
            omega
          · simp only [List.length_cons] at hlen
            push_cast at hlen
            omega
        obtain ⟨g1, g2, g3, g4⟩ := boardUpd_place_inv board row (col : ℤ)
          piece ctr h1 h2 h3 h4 hpid hppos
          (by unfold inBounds; simp only [Bool.and_eq_true, decide_eq_true_eq]
              omega)
        refine ih (col + 1) _ (ctr + 1) b2 c2 h ?_ g1 g2 g3 g4
        rcases hcol with hlim | hlen
        · exact Or.inl hlim
        · right
          simp only [List.length_cons] at hlen
          push_cast at hlen ⊢
          omega

/-- Source `setupBoard` produces an invariant board. -/
lemma setupBoard_inv (env : Env) (wh bl : List TeamSlot) (b : BoardState)
    (h : setupBoard env wh bl = .ok b) :
    posConsistent b ∧ noDoubleOccupancy b ∧ boardWellFormed b := by
  simp only [setupBoard] at h
  have hP8 : PIECE_ORDER.length = 8 := rfl
  have base : posConsistent createEmptyBoard ∧
      noDoubleOccupancy createEmptyBoard ∧
      boardWellFormed createEmptyBoard ∧
      (∀ r c q, createEmptyBoard r c = some q → q.id ≤ 0) := by
    refine ⟨?_, ?_, ?_, ?_⟩ <;> intro r c <;> simp [createEmptyBoard]
  cases e1 : placeSlots env .white 7 false (backRowSlots wh) 0
      createEmptyBoard 0 with
  | error e => simp only [e1] at h; exact Except.noConfusion h
  | ok p1 =>
    obtain ⟨b1, c1⟩ := p1
    simp only [e1] at h
    have hlen1 : (0 : ℤ) + ((backRowSlots wh).length : ℤ) ≤ 8 := by
      have hfm := List.length_filterMap_le
        (fun cls => (wh.filter fun s => decide (s.pieceClass = cls)).head?)
        PIECE_ORDER
      simp only [backRowSlots]
      omega
    have s1 := placeSlots_inv env .white 7 false (by omega)
      (backRowSlots wh) 0 createEmptyBoard 0 b1 c1 e1
      (Or.inr (by simpa using hlen1)) base.1 base.2.1 base.2.2.1 base.2.2.2
    cases e2 : placeSlots env .white 6 true
        (wh.filter fun s => decide (s.pieceClass = .Pawn)) 0 b1 c1 with
    | error e => simp only [e2] at h; exact Except.noConfusion h
    | ok p2 =>
      obtain ⟨b2, c2⟩ := p2
      simp only [e2] at h
      have s2 := placeSlots_inv env .white 6 true (by omega)
        (wh.filter fun s => decide (s.pieceClass = .Pawn)) 0 b1 c1 b2 c2 e2
        (Or.inl rfl) s1.1 s1.2.1 s1.2.2.1 s1.2.2.2
      cases e3 : placeSlots env .black 0 false (backRowSlots bl) 0 b2 c2 with
      | error e => simp only [e3] at h; exact Except.noConfusion h
      | ok p3 =>
        obtain ⟨b3, c3⟩ := p3
        simp only [e3] at h
        have hlen3 : (0 : ℤ) + ((backRowSlots bl).length : ℤ) ≤ 8 := by
          have hfm := List.length_filterMap_le
            (fun cls => (bl.filter fun s => decide (s.pieceClass = cls)).head?)
            PIECE_ORDER
          simp only [backRowSlots]
          omega
        have s3 := placeSlots_inv env .black 0 false (by omega)
          (backRowSlots bl) 0 b2 c2 b3 c3 e3
          (Or.inr (by simpa using hlen3)) s2.1 s2.2.1 s2.2.2.1 s2.2.2.2
        cases e4 : placeSlots env .black 1 true
            (bl.filter fun s => decide (s.pieceClass = .Pawn)) 0 b3 c3 with
        | error e => simp only [e4] at h; exact Except.noConfusion h
        | ok p4 =>
          obtain ⟨b4, c4⟩ := p4
          simp only [e4, Except.ok.injEq] at h
          subst h
          have s4 := placeSlots_inv env .black 1 true (by omega)
            (bl.filter fun s => decide (s.pieceClass = .Pawn)) 0 b3 c3 b4 c4 e4
            (Or.inl rfl) s3.1 s3.2.1 s3.2.2.1 s3.2.2.2
          exact ⟨s4.1, s4.2.1, s4.2.2.1⟩

/-- Source `createGame` produces an invariant state. -/
lemma createGame_inv (env : Env) (wh bl : List TeamSlot) (s : GameState)
    (h : createGame env wh bl = .ok s) : StateInv s := by
  unfold createGame at h
  split at h
  · simp at h
  next b hb =>
    simp only [Except.ok.injEq] at h
    subst h
    obtain ⟨h1, h2, h3⟩ := setupBoard_inv env wh bl b hb
    exact ⟨h1, h2, h3, fun pc hpc => Option.noConfusion hpc⟩

/-- The full invariant holds on every reachable state. -/
lemma reachable_StateInv (env : Env) (s : GameState) (hs : Reachable env s) :
    StateInv s := by
  induction hs with
  | init wh bl s1 hc => exact createGame_inv env wh bl s1 hc
  | move s1 mv s2 _ hmk ih => exact makeMove_inv s1 mv s2 ih hmk
  | combat s1 rolls fuel s2 _ hres ih =>
    exact resolvePendingCombat_inv env rolls fuel s1 s2 ih hres

/-- C9.  On every state reachable from `createGame` by accepted `makeMove`
and `resolvePendingCombat` calls (under any combat outcomes): each square
holds at most one piece (intrinsic to the grid — one `Option` slot per
square, as in the source's 2-D array), no piece id occupies two distinct
squares, and every stored `position` equals the coordinates of the square
holding the piece. -/
theorem c9_board_integrity (env : Env) (s : GameState)
    (hs : Reachable env s) :
    (∀ r c p, s.board r c = some p → p.position = some ⟨r, c⟩) ∧
    (∀ r c r2 c2 p q, s.board r c = some p → s.board r2 c2 = some q →
      p.id = q.id → r = r2 ∧ c = c2) := by
  obtain ⟨h1, h2, _, _⟩ := reachable_StateInv env s hs
  exact ⟨h1, h2⟩

/-- Witness for C9: in the freshly created sample game, the white King placed
on square (7,0) stores exactly that position. -/
theorem c9_board_integrity_witness :
    sampleInitKing.position = some ⟨7, 0⟩ :=
  (c9_board_integrity sampleEnv sampleInitState
    (Reachable.init sampleWhiteTeam sampleBlackTeam sampleInitState
      (by rfl))).1 7 0 sampleInitKing (by rfl)

end PokeChess
